import Mathlib

/-!
# Verification of the runtara-object-store SQL/DDL compiler

Shallow embedding of the pure core of the `runtara-object-store` Rust
library — the identifier sanitizer (`src/sql/sanitize.rs`), the type
system (`src/types.rs`), the DDL generator (`src/sql/ddl.rs`), the
condition compiler (`src/sql/condition.rs`) and the pure planning
prefix of the store operations (`src/store.rs`) — together with proofs
and refutations of the specification claims about them.

Conventions of the embedding:
* `serde_json::Value` is modelled by `Json`; numbers are carried as
  their decimal literal text (which is exactly what the compiler uses:
  `Number::to_string`).
* The Rust `i32` parameter-offset counter is modelled by `Int`
  (unbounded; no claim depends on 32-bit wrap-around).
* Fallible Rust functions returning `Result<T, String>` become
  `Except String T`; `&mut i32` threading becomes an extra returned
  offset.
-/

namespace OS

/-- Model of `serde_json::Value`.  A number is kept as its decimal
literal (`serde_json::Number` round-trips through `to_string`, which is
the only observation the compiler makes of it). -/
inductive Json where
  | null : Json
  | bool (b : Bool) : Json
  | num (s : String) : Json
  | str (s : String) : Json
  | arr (xs : List Json) : Json
  | obj (fields : List (String × Json)) : Json

/-- `Value::as_str`. -/
def Json.asStr : Json → Option String
  | .str s => some s
  | _ => none

/-- `Value::as_array`. -/
def Json.asArr : Json → Option (List Json)
  | .arr xs => some xs
  | _ => none

/-- `Value::is_null`. -/
def Json.isNull : Json → Bool
  | .null => true
  | _ => false

/-- First binding of a key in an object's field list (serde_json
objects have unique keys, so first = only). -/
def fieldsLookup (k : String) : List (String × Json) → Option Json
  | [] => none
  | (k', v) :: rest => if k' = k then some v else fieldsLookup k rest

/-- Compact serde_json rendering, used only for `Value::to_string` on
the (array/object) fall-through of the comparison value conversion. -/
def jsonRender : Json → String
  | .null => "null"
  | .bool b => if b then "true" else "false"
  | .num s => s
  | .str s => "\"" ++ s ++ "\""
  | .arr xs => "[" ++ renderList xs ++ "]"
  | .obj fs => "\x7b" ++ renderFields fs ++ "\x7d"
where
  renderList : List Json → String
    | [] => ""
    | [x] => jsonRender x
    | x :: xs => jsonRender x ++ "," ++ renderList xs
  renderFields : List (String × Json) → String
    | [] => ""
    | [(k, v)] => "\"" ++ k ++ "\":" ++ jsonRender v
    | (k, v) :: fs => "\"" ++ k ++ "\":" ++ jsonRender v ++ "," ++ renderFields fs

/-- `instance.rs`: `Condition { op, arguments }`. -/
structure Condition where
  op : String
  arguments : Option (List Json)

/-- `serde_json::from_value::<Condition>`: succeeds on an object whose
`op` field is a string; `arguments`, when present and non-null, must be
an array (serde derives `Option` fields as missing-or-null ↦ `None`);
unknown fields are ignored. -/
def fromValueCondition : Json → Option Condition
  | .obj fs =>
    match fieldsLookup "op" fs with
    | some (.str op) =>
      match fieldsLookup "arguments" fs with
      | none => some ⟨op, none⟩
      | some .null => some ⟨op, none⟩
      | some (.arr xs) => some ⟨op, some xs⟩
      | some _ => none
    | _ => none
  | _ => none

/-- `Vec<String>::join(sep)` (Rust semantics). -/
def joinSep (sep : String) : List String → String
  | [] => ""
  | [x] => x
  | x :: xs => x ++ sep ++ joinSep sep xs

/-- `str::to_uppercase` (character-wise; the op keys and identifiers it
is applied to are ASCII). -/
def strToUpper (s : String) : String :=
  ⟨s.data.map Char.toUpper⟩

/-- `str::to_lowercase` (character-wise). -/
def strToLower (s : String) : String :=
  ⟨s.data.map Char.toLower⟩

/-- Value of a digit run (most significant first). -/
def digitsVal (ds : List Char) : Nat :=
  ds.foldl (fun a c => 10 * a + (c.toNat - 48)) 0

/-- A non-empty all-digit run parsed to its value. -/
def parseDigitsVal? (l : List Char) : Option Nat :=
  if l.isEmpty then none
  else if l.all Char.isDigit then some (digitsVal l) else none

/-- Rust `str::parse::<i64>` shape: optional sign then digits (the
64-bit range is not modelled; no claim depends on it). -/
def strParseInt? (s : String) : Option Int :=
  match s.data with
  | '+' :: rest => (parseDigitsVal? rest).map fun n => (n : Int)
  | '-' :: rest => (parseDigitsVal? rest).map fun n => -(n : Int)
  | l => (parseDigitsVal? l).map fun n => (n : Int)

/-- `condition.rs` field-name validation character class:
`c.is_alphanumeric() || c == '_' || c == '-'` (Rust's class is Unicode
alphanumeric; ASCII `isAlphanum` is used here — the difference never
touches `'$'` or digits, which is all the theorems consume). -/
def validFieldChar (c : Char) : Bool :=
  c.isAlphanum || c = '_' || c = '-'

/-- `field.chars().all(validFieldChar)`. -/
def validField (field : String) : Bool :=
  field.data.all validFieldChar

/-- The comparison operator token for an `EQ`/`NE`/`GT`/`LT`/`GTE`/`LTE`
op (the `_ => unreachable!()` arm of the source match is total here with
a dummy value; it is only applied to the six keys). -/
def cmpOperator : String → String
  | "EQ" => "="
  | "NE" => "!="
  | "GT" => ">"
  | "LT" => "<"
  | "GTE" => ">="
  | "LTE" => "<="
  | _ => ""

/-- The string a comparison value is converted to before being pushed
as a parameter (`condition.rs` lines 134-140). -/
def valueToParamString : Json → String
  | .str s => s
  | .num n => n
  | .bool b => if b then "true" else "false"
  | .null => "null"
  | v => jsonRender v

/-- Structural size of a `Json` tree (used as termination measure for
the condition compiler, which recurses through re-parsed argument
values). -/
def jsonSize : Json → Nat
  | .null => 1
  | .bool _ => 1
  | .num _ => 1
  | .str _ => 1
  | .arr xs => 1 + argsSize xs
  | .obj fs => 1 + fieldsSize fs
where
  argsSize : List Json → Nat
    | [] => 0
    | x :: xs => jsonSize x + argsSize xs
  fieldsSize : List (String × Json) → Nat
    | [] => 0
    | (_, v) :: fs => 1 + jsonSize v + fieldsSize fs

/-- Size of a parsed condition: 1 + size of its argument list. -/
def condSize (c : Condition) : Nat :=
  match c.arguments with
  | none => 1
  | some xs => 1 + jsonSize.argsSize xs

theorem jsonSize_pos (j : Json) : 1 ≤ jsonSize j := by
  cases j <;> (simp only [jsonSize]; omega)

theorem argsSize_mem {x : Json} {xs : List Json} (h : x ∈ xs) :
    jsonSize x ≤ jsonSize.argsSize xs := by
  induction xs with
  | nil => cases h
  | cons y ys ih =>
    rcases List.mem_cons.mp h with rfl | h'
    · simp only [jsonSize.argsSize]; omega
    · have := ih h'
      simp only [jsonSize.argsSize]; omega

theorem fieldsLookup_size {k : String} {fs : List (String × Json)} {v : Json}
    (h : fieldsLookup k fs = some v) : jsonSize v ≤ jsonSize.fieldsSize fs := by
  induction fs with
  | nil => simp [fieldsLookup] at h
  | cons p rest ih =>
    obtain ⟨k', v'⟩ := p
    simp only [fieldsLookup] at h
    split at h
    · cases h
      simp only [jsonSize.fieldsSize]; omega
    · have := ih h
      simp only [jsonSize.fieldsSize]; omega

theorem condSize_some {c : Condition} {args : List Json}
    (h : c.arguments = some args) : condSize c = 1 + jsonSize.argsSize args := by
  simp [condSize, h]

theorem fromValueCondition_size {j : Json} {c : Condition}
    (h : fromValueCondition j = some c) : condSize c ≤ jsonSize j := by
  cases j with
  | null => simp [fromValueCondition] at h
  | bool b => simp [fromValueCondition] at h
  | num s => simp [fromValueCondition] at h
  | str s => simp [fromValueCondition] at h
  | arr xs => simp [fromValueCondition] at h
  | obj fs =>
    simp only [fromValueCondition] at h
    cases hop : fieldsLookup "op" fs with
    | none => rw [hop] at h; exact Option.noConfusion h
    | some v =>
      rw [hop] at h
      cases v with
      | str op =>
        cases hargs : fieldsLookup "arguments" fs with
        | none =>
          rw [hargs] at h; cases h
          simp only [condSize, jsonSize]; omega
        | some w =>
          rw [hargs] at h
          cases w with
          | null =>
            cases h
            simp only [condSize, jsonSize]; omega
          | arr xs =>
            cases h
            have := fieldsLookup_size hargs
            simp only [jsonSize] at this
            simp only [condSize, jsonSize]
            omega
          | bool b => exact Option.noConfusion h
          | num s => exact Option.noConfusion h
          | str s => exact Option.noConfusion h
          | obj fs2 => exact Option.noConfusion h
      | null => exact Option.noConfusion h
      | bool b => exact Option.noConfusion h
      | num s => exact Option.noConfusion h
      | arr xs => exact Option.noConfusion h
      | obj fs2 => exact Option.noConfusion h

/-- The `EQ`/`NE`/`GT`/`LT`/`GTE`/`LTE` arm of `build_condition_clause`
(`condition.rs` lines 90-151); `op` is the uppercased operation key. -/
def buildCmpArm (op : String) (arguments : Option (List Json)) (off : Int) :
    Except String (String × List Json × Int) :=
  match arguments with
  | some args =>
    match args with
    | [a0, a1] =>
      match a0.asStr with
      | none => .error "First argument must be a field name"
      | some field =>
        if !(validField field) then
          .error "Field name contains invalid characters"
        else
          if a1.isNull then
            match op with
            | "EQ" => .ok ("\"" ++ field ++ "\" IS NULL", [], off)
            | "NE" => .ok ("\"" ++ field ++ "\" IS NOT NULL", [], off)
            | _ => .error (op ++ " operation with NULL value is not supported")
          else
            .ok ("\"" ++ field ++ "\"::text " ++ cmpOperator op ++ " $" ++
                   Int.repr off ++ "::text",
                 [.str (valueToParamString a1)], off + 1)
    | _ => .error (op ++ " operation requires exactly 2 arguments")
  | none => .error (op ++ " operation requires arguments")

/-- The `CONTAINS` arm of `build_condition_clause` (lines 152-179). -/
def buildContainsArm (arguments : Option (List Json)) (off : Int) :
    Except String (String × List Json × Int) :=
  match arguments with
  | some args =>
    match args with
    | [a0, a1] =>
      match a0.asStr with
      | none => .error "First argument must be a field name"
      | some field =>
        match a1.asStr with
        | none => .error "Second argument must be a string"
        | some value =>
          if !(validField field) then
            .error "Field name contains invalid characters"
          else
            .ok ("\"" ++ field ++ "\"::text LIKE $" ++ Int.repr off ++ "::text",
                 [.str ("%" ++ value ++ "%")], off + 1)
    | _ => .error "CONTAINS operation requires exactly 2 arguments"
  | none => .error "CONTAINS operation requires arguments"

/-- The `IN` arm of `build_condition_clause` (lines 180-212). -/
def buildInArm (arguments : Option (List Json)) (off : Int) :
    Except String (String × List Json × Int) :=
  match arguments with
  | some args =>
    match args with
    | [a0, a1] =>
      match a0.asStr with
      | none => .error "First argument must be a field name"
      | some field =>
        match a1.asArr with
        | none => .error "Second argument must be an array"
        | some values =>
          if !(validField field) then
            .error "Field name contains invalid characters"
          else
            .ok ("\"" ++ field ++
                   "\"::text = ANY(SELECT jsonb_array_elements_text($" ++
                   Int.repr off ++ "::jsonb))",
                 [.arr values], off + 1)
    | _ => .error "IN operation requires exactly 2 arguments"
  | none => .error "IN operation requires arguments"

/-- The `NOT_IN` arm of `build_condition_clause` (lines 213-245). -/
def buildNotInArm (arguments : Option (List Json)) (off : Int) :
    Except String (String × List Json × Int) :=
  match arguments with
  | some args =>
    match args with
    | [a0, a1] =>
      match a0.asStr with
      | none => .error "First argument must be a field name"
      | some field =>
        match a1.asArr with
        | none => .error "Second argument must be an array"
        | some values =>
          if !(validField field) then
            .error "Field name contains invalid characters"
          else
            .ok ("NOT (\"" ++ field ++
                   "\"::text = ANY(SELECT jsonb_array_elements_text($" ++
                   Int.repr off ++ "::jsonb)))",
                 [.arr values], off + 1)
    | _ => .error "NOT_IN operation requires exactly 2 arguments"
  | none => .error "NOT_IN operation requires arguments"

/-- The `IS_EMPTY` arm of `build_condition_clause` (lines 246-267). -/
def buildIsEmptyArm (arguments : Option (List Json)) (off : Int) :
    Except String (String × List Json × Int) :=
  match arguments with
  | some args =>
    match args with
    | [a0] =>
      match a0.asStr with
      | none => .error "Argument must be a field name"
      | some field =>
        if !(validField field) then
          .error "Field name contains invalid characters"
        else
          .ok ("(\"" ++ field ++ "\" IS NULL OR \"" ++ field ++
                 "\"::text = '')", [], off)
    | _ => .error "IS_EMPTY operation requires exactly 1 argument"
  | none => .error "IS_EMPTY operation requires an argument"

/-- The `IS_NOT_EMPTY` arm of `build_condition_clause` (lines 268-289). -/
def buildIsNotEmptyArm (arguments : Option (List Json)) (off : Int) :
    Except String (String × List Json × Int) :=
  match arguments with
  | some args =>
    match args with
    | [a0] =>
      match a0.asStr with
      | none => .error "Argument must be a field name"
      | some field =>
        if !(validField field) then
          .error "Field name contains invalid characters"
        else
          .ok ("(\"" ++ field ++ "\" IS NOT NULL AND \"" ++ field ++
                 "\"::text != '')", [], off)
    | _ => .error "IS_NOT_EMPTY operation requires exactly 1 argument"
  | none => .error "IS_NOT_EMPTY operation requires an argument"

/-- The `IS_DEFINED` arm of `build_condition_clause` (lines 290-311). -/
def buildIsDefinedArm (arguments : Option (List Json)) (off : Int) :
    Except String (String × List Json × Int) :=
  match arguments with
  | some args =>
    match args with
    | [a0] =>
      match a0.asStr with
      | none => .error "Argument must be a field name"
      | some field =>
        if !(validField field) then
          .error "Field name contains invalid characters"
        else
          .ok ("\"" ++ field ++ "\" IS NOT NULL", [], off)
    | _ => .error "IS_DEFINED operation requires exactly 1 argument"
  | none => .error "IS_DEFINED operation requires an argument"

mutual

/-- `condition.rs` `build_condition_clause`: compile a condition tree
to a SQL fragment plus positional parameters.  The `&mut i32` offset is
threaded explicitly: the result carries the final offset.  The six
non-recursive operator families are factored into the `…Arm` helpers
above; `AND`/`OR`/`NOT` recurse through `serde_json::from_value`
re-parsing, mirrored by `fromValueCondition`. -/
def build_condition_clause (c : Condition) (off : Int) :
    Except String (String × List Json × Int) :=
  match strToUpper c.op with
  | "AND" =>
    match h : c.arguments with
    | some args =>
      match buildSubClauses args off with
      | .error e => .error e
      | .ok res =>
        if res.1.isEmpty then
          .error "AND operation requires at least one condition"
        else
          .ok (joinSep " AND " res.1, res.2.1, res.2.2)
    | none => .error "AND operation requires arguments"
  | "OR" =>
    match h : c.arguments with
    | some args =>
      match buildSubClauses args off with
      | .error e => .error e
      | .ok res =>
        if res.1.isEmpty then
          .error "OR operation requires at least one condition"
        else
          .ok (joinSep " OR " res.1, res.2.1, res.2.2)
    | none => .error "OR operation requires arguments"
  | "NOT" =>
    match h : c.arguments with
    | some args =>
      match h1 : args with
      | [arg] =>
        match h2 : fromValueCondition arg with
        | some sub =>
          match build_condition_clause sub off with
          | .error e => .error e
          | .ok res =>
            .ok ("NOT (" ++ res.1 ++ ")", res.2.1, res.2.2)
        | none => .error "NOT operation requires a Condition argument"
      | _ => .error "NOT operation requires exactly one argument"
    | none => .error "NOT operation requires an argument"
  | "EQ" | "NE" | "GT" | "LT" | "GTE" | "LTE" =>
    buildCmpArm (strToUpper c.op) c.arguments off
  | "CONTAINS" =>
    buildContainsArm c.arguments off
  | "IN" =>
    buildInArm c.arguments off
  | "NOT_IN" =>
    buildNotInArm c.arguments off
  | "IS_EMPTY" =>
    buildIsEmptyArm c.arguments off
  | "IS_NOT_EMPTY" =>
    buildIsNotEmptyArm c.arguments off
  | "IS_DEFINED" =>
    buildIsDefinedArm c.arguments off
  | _ => .error ("Unsupported operation: " ++ strToUpper c.op)
termination_by (condSize c, 1)
decreasing_by
· simp only [condSize_some h]
  exact Prod.Lex.right _ (by omega)
· simp only [condSize_some h]
  exact Prod.Lex.right _ (by omega)
· apply Prod.Lex.left
  have hs := fromValueCondition_size h2
  try simp only [h1]
  simp only [condSize_some h, jsonSize.argsSize]
  omega

/-- The AND/OR argument loop of `build_condition_clause`: arguments are
re-parsed as conditions (`serde_json::from_value::<Condition>`); a value
that does not parse is skipped (`if let Ok(..)`); each compiled clause
is wrapped in parentheses; errors from sub-compilations propagate. -/
def buildSubClauses (args : List Json) (off : Int) :
    Except String (List String × List Json × Int) :=
  match args with
  | [] => .ok ([], [], off)
  | arg :: rest =>
    match h2 : fromValueCondition arg with
    | none => buildSubClauses rest off
    | some sub =>
      match build_condition_clause sub off with
      | .error e => .error e
      | .ok res =>
        match buildSubClauses rest res.2.2 with
        | .error e => .error e
        | .ok res2 =>
          .ok (("(" ++ res.1 ++ ")") :: res2.1, res.2.1 ++ res2.2.1, res2.2.2)
termination_by (1 + jsonSize.argsSize args, 0)
decreasing_by
all_goals
  apply Prod.Lex.left
  simp only [jsonSize.argsSize]
  first
  | exact Nat.add_lt_add_left (Nat.lt_add_of_pos_left (jsonSize_pos _)) 1
  | (have hs := fromValueCondition_size h2; omega)

end

/-! ## Identifier sanitizer (`src/sql/sanitize.rs`) -/

/-- `POSTGRES_RESERVED_WORDS`. -/
def POSTGRES_RESERVED_WORDS : List String :=
  ["ALL", "ANALYSE", "ANALYZE", "AND", "ANY", "ARRAY", "AS", "ASC",
   "ASYMMETRIC", "BOTH", "CASE", "CAST", "CHECK", "COLLATE", "COLUMN",
   "CONSTRAINT", "CREATE", "CURRENT_CATALOG", "CURRENT_DATE",
   "CURRENT_ROLE", "CURRENT_TIME", "CURRENT_TIMESTAMP", "CURRENT_USER",
   "DEFAULT", "DEFERRABLE", "DESC", "DISTINCT", "DO", "ELSE", "END",
   "EXCEPT", "FALSE", "FETCH", "FOR", "FOREIGN", "FROM", "GRANT",
   "GROUP", "HAVING", "IN", "INITIALLY", "INTERSECT", "INTO", "LATERAL",
   "LEADING", "LIMIT", "LOCALTIME", "LOCALTIMESTAMP", "NOT", "NULL",
   "OFFSET", "ON", "ONLY", "OR", "ORDER", "PLACING", "PRIMARY",
   "REFERENCES", "RETURNING", "SELECT", "SESSION_USER", "SOME",
   "SYMMETRIC", "TABLE", "THEN", "TO", "TRAILING", "TRUE", "UNION",
   "UNIQUE", "USER", "USING", "VARIADIC", "WHEN", "WHERE", "WINDOW",
   "WITH"]

/-- `str::replace('"', "\"\"")`: double every embedded double quote. -/
def escapeDoubleQuotes (s : String) : String :=
  ⟨s.data.flatMap fun c => if c = '"' then ['"', '"'] else [c]⟩

/-- `sanitize.rs` `quote_identifier`. -/
def quote_identifier (identifier : String) : String :=
  "\"" ++ escapeDoubleQuotes identifier ++ "\""

/-- The regex `^[a-z][a-z0-9_]*$` of `validate_identifier`. -/
def identifierRegexMatch (name : String) : Bool :=
  match name.data with
  | [] => false
  | c :: rest => c.isLower && rest.all fun c => c.isLower || c.isDigit || c = '_'

/-- `sanitize.rs` `validate_identifier`. -/
def validate_identifier (name : String) (reserved_columns : List String) :
    Except String Unit :=
  if name = "" then
    .error "Identifier cannot be empty"
  else if !identifierRegexMatch name then
    .error ("Identifier '" ++ name ++
      "' is invalid. Must start with a lowercase letter and contain only lowercase letters, numbers, and underscores.")
  else if POSTGRES_RESERVED_WORDS.contains (strToUpper name) then
    .error ("Identifier '" ++ name ++
      "' is a PostgreSQL reserved keyword and cannot be used.")
  else if reserved_columns.contains name then
    .error ("Column name '" ++ name ++ "' is reserved and cannot be used.")
  else
    .ok ()

/-! ## Type system (`src/types.rs`) -/

/-- `types.rs` `ColumnType`.  Rust's `u8` precision/scale are carried
as `Nat` (they are only ever rendered in decimal). -/
inductive ColumnType where
  | string : ColumnType
  | integer : ColumnType
  | decimal (precision scale : Nat) : ColumnType
  | boolean : ColumnType
  | timestamp : ColumnType
  | json : ColumnType
  | enum (values : List String) : ColumnType
deriving DecidableEq

/-- `str::replace("'", "''")`: double every embedded single quote. -/
def escapeSingleQuotes (s : String) : String :=
  ⟨s.data.flatMap fun c => if c = '\'' then ['\'', '\''] else [c]⟩

/-- `types.rs` `ColumnType::to_sql_type`.  Note: the enum `CHECK`
constraint splices `column_name` exactly as passed — the source does
`format!("TEXT CHECK ({} IN ({}))", column_name, …)` with no quoting. -/
def ColumnType.to_sql_type (t : ColumnType) (column_name : String) : String :=
  match t with
  | .string => "TEXT"
  | .integer => "BIGINT"
  | .decimal precision scale =>
    "NUMERIC(" ++ Nat.repr precision ++ "," ++ Nat.repr scale ++ ")"
  | .boolean => "BOOLEAN"
  | .timestamp => "TIMESTAMP WITH TIME ZONE"
  | .json => "JSONB"
  | .enum values =>
    "TEXT CHECK (" ++ column_name ++ " IN (" ++
      joinSep ", " (values.map fun v => "'" ++ escapeSingleQuotes v ++ "'") ++ "))"

/-- `serde_json::Number::is_i64` on a number literal: an integer
literal (no fraction, no exponent) — `String.toInt?` accepts exactly an
optional `-` followed by digits.  (The `u64`-overflow corner of serde
is not modelled; no claim depends on 64-bit ranges.) -/
def jsonNumIsI64 (s : String) : Bool :=
  (strParseInt? s).isSome

/-- Rust `str::parse::<i64>()` success (modulo the 64-bit range, which
no claim depends on). -/
def parsesAsI64 (s : String) : Bool :=
  (strParseInt? s).isSome

/-- Rust `str::parse::<f64>()` success: optional sign, then either a
decimal number (digits, optional fraction, at least one digit, optional
exponent) or one of the special values `inf`/`infinity`/`nan`
(case-insensitive). -/
def parsesAsF64 (s : String) : Bool :=
  let afterSign :=
    match s.data with
    | '+' :: rest => rest
    | '-' :: rest => rest
    | l => l
  let lower := afterSign.map Char.toLower
  if lower = "inf".data || lower = "infinity".data || lower = "nan".data then
    true
  else
    let intPart := afterSign.takeWhile Char.isDigit
    let rest1 := afterSign.dropWhile Char.isDigit
    let (fracPart, rest2) :=
      match rest1 with
      | '.' :: r => (r.takeWhile Char.isDigit, r.dropWhile Char.isDigit)
      | _ => ([], rest1)
    let hasDigits := !intPart.isEmpty || !fracPart.isEmpty
    let fracOk := match rest1 with | '.' :: _ => true | _ => rest1 = rest2
    let expOk :=
      match rest2 with
      | [] => true
      | 'e' :: r | 'E' :: r =>
        let r' := match r with | '+' :: t => t | '-' :: t => t | t => t
        !r'.isEmpty && r'.all Char.isDigit
      | _ => false
    hasDigits && fracOk && expOk

/-- A syntactic RFC 3339 timestamp check standing in for
`chrono::DateTime::parse_from_rfc3339` (chrono is an external
collaborator of the repository; no claim exercises timestamp parsing):
`YYYY-MM-DDTHH:MM:SS[.frac](Z|±HH:MM)` with in-range fields. -/
def parsesAsRfc3339 (s : String) : Bool :=
  let l := s.data
  let digits (n : Nat) (l : List Char) : Bool :=
    l.length = n && l.all Char.isDigit
  let twoVal (l : List Char) : Nat :=
    match l with
    | [a, b] => (a.toNat - 48) * 10 + (b.toNat - 48)
    | _ => 0
  match l with
  | y1 :: y2 :: y3 :: y4 :: '-' :: m1 :: m2 :: '-' :: d1 :: d2 :: t :: rest =>
    (digits 4 [y1, y2, y3, y4] && (t = 'T' || t = 't') &&
      digits 2 [m1, m2] && digits 2 [d1, d2] &&
      1 ≤ twoVal [m1, m2] && twoVal [m1, m2] ≤ 12 &&
      1 ≤ twoVal [d1, d2] && twoVal [d1, d2] ≤ 31) &&
    (match rest with
     | h1 :: h2 :: ':' :: mi1 :: mi2 :: ':' :: s1 :: s2 :: tail =>
       (digits 2 [h1, h2] && digits 2 [mi1, mi2] && digits 2 [s1, s2] &&
         twoVal [h1, h2] ≤ 23 && twoVal [mi1, mi2] ≤ 59 &&
         twoVal [s1, s2] ≤ 60) &&
       (let afterFrac :=
          match tail with
          | '.' :: r => if (r.takeWhile Char.isDigit).isEmpty then none
                        else some (r.dropWhile Char.isDigit)
          | r => some r
        match afterFrac with
        | none => false
        | some tz =>
          match tz with
          | ['Z'] => true
          | ['z'] => true
          | sign :: o1 :: o2 :: ':' :: o3 :: o4 :: [] =>
            (sign = '+' || sign = '-') && digits 2 [o1, o2] &&
              digits 2 [o3, o4] && twoVal [o1, o2] ≤ 23 && twoVal [o3, o4] ≤ 59
          | _ => false)
     | _ => false)
  | _ => false

/-- Debug rendering of a column type (`{:?}`), used only inside error
messages the claims never inspect. -/
def ColumnType.debugRender : ColumnType → String
  | .string => "String"
  | .integer => "Integer"
  | .decimal p s =>
    "Decimal \x7b precision: " ++ Nat.repr p ++ ", scale: " ++ Nat.repr s ++ " \x7d"
  | .boolean => "Boolean"
  | .timestamp => "Timestamp"
  | .json => "Json"
  | .enum values =>
    "Enum \x7b values: [" ++
      joinSep ", " (values.map fun v => "\"" ++ v ++ "\"") ++ "] \x7d"

/-- `types.rs` `ColumnType::validate_value`. -/
def ColumnType.validate_value (t : ColumnType) (value : Json) :
    Except String Unit :=
  if value.isNull then
    .ok ()
  else
    match t, value with
    | .string, .str _ => .ok ()
    | .integer, .num n =>
      if jsonNumIsI64 n then .ok ()
      else .error ("Type mismatch: expected " ++ t.debugRender ++ ", got " ++ jsonRender value)
    | .integer, .str s =>
      if parsesAsI64 s then .ok ()
      else .error ("Cannot convert '" ++ s ++ "' to integer")
    | .decimal _ _, .num _ => .ok ()
    | .decimal _ _, .str s =>
      if parsesAsF64 s then .ok ()
      else .error ("Cannot convert '" ++ s ++ "' to decimal")
    | .boolean, .bool _ => .ok ()
    | .boolean, .str s =>
      if strToLower s = "true" || strToLower s = "false" || strToLower s = "1" ||
         strToLower s = "0" || strToLower s = "yes" || strToLower s = "no" then .ok ()
      else .error ("Cannot convert '" ++ s ++ "' to boolean")
    | .timestamp, .str s =>
      if parsesAsRfc3339 s then .ok ()
      else .error "Invalid timestamp format"
    | .json, _ => .ok ()
    | .enum values, .str s =>
      if values.contains s then .ok ()
      else .error ("Value '" ++ s ++ "' not in enum values: [" ++
        joinSep ", " (values.map fun v => "\"" ++ v ++ "\"") ++ "]")
    | _, _ =>
      .error ("Type mismatch: expected " ++ t.debugRender ++ ", got " ++ jsonRender value)

/-- `types.rs` `ColumnDefinition`. -/
structure ColumnDefinition where
  name : String
  column_type : ColumnType
  nullable : Bool := true
  unique : Bool := false
  default_value : Option String := none
deriving DecidableEq

/-- `types.rs` `IndexDefinition`. -/
structure IndexDefinition where
  name : String
  columns : List String
  unique : Bool := false

/-! ## Configuration (`src/config.rs`) -/

/-- `config.rs` `AutoColumns`. -/
structure AutoColumns where
  id : Bool := true
  created_at : Bool := true
  updated_at : Bool := true

/-- `config.rs` `StoreConfig`. -/
structure StoreConfig where
  database_url : String := ""
  metadata_table : String := "__schema"
  soft_delete : Bool := true
  auto_columns : AutoColumns := {}

/-! ## DDL generation (`src/sql/ddl.rs`) -/

/-- `ddl.rs` `DdlGenerator::format_column_definition`. -/
def format_column_definition (col : ColumnDefinition) : String :=
  let parts :=
    [quote_identifier col.name, col.column_type.to_sql_type col.name] ++
    (if col.unique then ["UNIQUE"] else []) ++
    (if !col.nullable then ["NOT NULL"] else []) ++
    (match col.default_value with
     | some default => ["DEFAULT " ++ default]
     | none => [])
  joinSep " " parts

/-- `ddl.rs` `DdlGenerator::generate_create_table`. -/
def generate_create_table (config : StoreConfig) (table_name : String)
    (columns : List ColumnDefinition) : String :=
  let quoted_table := quote_identifier table_name
  let column_defs :=
    (if config.auto_columns.id then
      ["id VARCHAR(255) PRIMARY KEY DEFAULT gen_random_uuid()::text"] else []) ++
    columns.map format_column_definition ++
    (if config.auto_columns.created_at then
      ["created_at TIMESTAMPTZ DEFAULT NOW()"] else []) ++
    (if config.auto_columns.updated_at then
      ["updated_at TIMESTAMPTZ DEFAULT NOW()"] else []) ++
    (if config.soft_delete then ["deleted BOOLEAN DEFAULT FALSE"] else [])
  "CREATE TABLE " ++ quoted_table ++ " (" ++ joinSep ", " column_defs ++ ")"

/-- `ddl.rs` `DdlGenerator::generate_alter_table`: added columns (in
new-list order), then dropped columns (in old-list order), then, for
each column of the new list also present in the old list, one statement
per changed attribute — type, then nullability, then default. -/
def generate_alter_table (table_name : String)
    (old_columns new_columns : List ColumnDefinition) : List String :=
  let quoted_table := quote_identifier table_name
  let added :=
    (new_columns.filter fun nc =>
        !(old_columns.any fun c => c.name = nc.name)).map fun nc =>
      "ALTER TABLE " ++ quoted_table ++ " ADD COLUMN " ++
        format_column_definition nc
  let dropped :=
    (old_columns.filter fun oc =>
        !(new_columns.any fun c => c.name = oc.name)).map fun oc =>
      "ALTER TABLE " ++ quoted_table ++ " DROP COLUMN " ++
        quote_identifier oc.name
  let modified :=
    new_columns.flatMap fun nc =>
      match old_columns.find? (fun c => c.name = nc.name) with
      | none => []
      | some oldCol =>
        (if oldCol.column_type ≠ nc.column_type then
          ["ALTER TABLE " ++ quoted_table ++ " ALTER COLUMN " ++
            quote_identifier nc.name ++ " TYPE " ++
            nc.column_type.to_sql_type nc.name]
         else []) ++
        (if oldCol.nullable ≠ nc.nullable then
          ["ALTER TABLE " ++ quoted_table ++ " ALTER COLUMN " ++
            quote_identifier nc.name ++ " " ++
            (if nc.nullable then "DROP NOT NULL" else "SET NOT NULL")]
         else []) ++
        (if oldCol.default_value ≠ nc.default_value then
          match nc.default_value with
          | some default =>
            ["ALTER TABLE " ++ quoted_table ++ " ALTER COLUMN " ++
              quote_identifier nc.name ++ " SET DEFAULT " ++ default]
          | none =>
            ["ALTER TABLE " ++ quoted_table ++ " ALTER COLUMN " ++
              quote_identifier nc.name ++ " DROP DEFAULT"]
         else [])
  added ++ dropped ++ modified

/-- `ddl.rs` `DdlGenerator::generate_drop_table`. -/
def generate_drop_table (table_name : String) : String :=
  "DROP TABLE IF EXISTS " ++ quote_identifier table_name ++ " CASCADE"

/-- `ddl.rs` `DdlGenerator::generate_create_index`. -/
def generate_create_index (table_name : String) (index : IndexDefinition) :
    String :=
  let quoted_table := quote_identifier table_name
  let quoted_index_name := quote_identifier (table_name ++ "_" ++ index.name)
  let quoted_columns := index.columns.map quote_identifier
  let unique_clause := if index.unique then "UNIQUE " else ""
  "CREATE " ++ unique_clause ++ "INDEX " ++ quoted_index_name ++ " ON " ++
    quoted_table ++ "(" ++ joinSep ", " quoted_columns ++ ")"

/-- `ddl.rs` `DdlGenerator::generate_default_index`. -/
def generate_default_index (config : StoreConfig) (table_name : String) :
    String :=
  let quoted_table := quote_identifier table_name
  let quoted_index := quote_identifier ("idx_" ++ table_name ++ "_default")
  if config.soft_delete then
    "CREATE INDEX " ++ quoted_index ++ " ON " ++ quoted_table ++
      "(created_at DESC) WHERE deleted = FALSE"
  else
    "CREATE INDEX " ++ quoted_index ++ " ON " ++ quoted_table ++
      "(created_at DESC)"

/-! ## Store operations (`src/store.rs`)

The store talks to PostgreSQL through sqlx (an external collaborator).
Every operation consists of a pure planning prefix — lookups modelled
as explicit inputs, validation, SQL string assembly, bind-list assembly
— followed by driver execution.  The models below embed that pure
prefix; DB effects (row counts, uuid/timestamp generation) are outside
the embedding. -/

/-- `error.rs` `ObjectStoreError` (driver/serde wrapper variants
carry their message only). -/
inductive ObjectStoreError where
  | validation (msg : String)
  | schemaNotFound (msg : String)
  | instanceNotFound (msg : String)
  | conflict (msg : String)
  | database (msg : String)
  | invalidCondition (msg : String)
  | connection (msg : String)

/-- `schema.rs` `Schema` (metadata row as materialized in memory). -/
structure Schema where
  id : String := ""
  created_at : String := ""
  updated_at : String := ""
  name : String
  description : Option String := none
  table_name : String
  columns : List ColumnDefinition
  indexes : Option (List IndexDefinition) := none

/-- `schema.rs` `CreateSchemaRequest`. -/
structure CreateSchemaRequest where
  name : String
  description : Option String := none
  table_name : String
  columns : List ColumnDefinition
  indexes : Option (List IndexDefinition) := none

/-- The SQL statements `create_schema` issues, in execution order. -/
structure CreateSchemaPlan where
  insert_sql : String
  create_table_sql : String
  default_index_sql : String
  index_sqls : List String

/-- `store.rs` `create_schema`, pure prefix: the two uniqueness lookups
(`get_schema` / `schema_by_table`, modelled by the `existing_names` /
`existing_tables` of the non-deleted metadata rows) and the assembly of
the metadata `INSERT` plus all DDL.  The multi-line raw SQL literal of
the source is modelled flattened to single spaces.  Note there is no
call to `validate_identifier` anywhere on this path. -/
def create_schema_plan (config : StoreConfig)
    (existing_names existing_tables : List String)
    (request : CreateSchemaRequest) :
    Except ObjectStoreError CreateSchemaPlan :=
  if existing_names.contains request.name then
    .error (.conflict ("Schema '" ++ request.name ++ "' already exists"))
  else if existing_tables.contains request.table_name then
    .error (.conflict ("Table '" ++ request.table_name ++ "' already exists"))
  else
    let metadata_table := quote_identifier config.metadata_table
    let insert_sql :=
      if config.soft_delete then
        "INSERT INTO " ++ metadata_table ++
          " (id, name, description, table_name, columns, indexes, deleted)" ++
          " VALUES ($1, $2, $3, $4, $5, $6, FALSE)" ++
          " RETURNING created_at, updated_at"
      else
        "INSERT INTO " ++ metadata_table ++
          " (id, name, description, table_name, columns, indexes)" ++
          " VALUES ($1, $2, $3, $4, $5, $6)" ++
          " RETURNING created_at, updated_at"
    .ok { insert_sql
          create_table_sql :=
            generate_create_table config request.table_name request.columns
          default_index_sql :=
            generate_default_index config request.table_name
          index_sqls :=
            (request.indexes.getD []).map
              (generate_create_index request.table_name) }

/-- The `INSERT` a single-row `create_instance` assembles. -/
structure SingleInsertPlan where
  column_names : List String
  placeholders : List String
  insert_sql : String

/-- The per-column validate-and-collect loop of `create_instance`
(`store.rs` lines 485-511), threading the running `param_idx`. -/
def createInstanceColumnLoop (columns : List ColumnDefinition)
    (props : List (String × Json)) (param_idx : Nat) :
    Except ObjectStoreError (List String × List String × Nat) :=
  match columns with
  | [] => .ok ([], [], param_idx)
  | col :: rest =>
    match fieldsLookup col.name props with
    | some value =>
      match col.column_type.validate_value value with
      | .error e =>
        .error (.validation
          ("Invalid value for column '" ++ col.name ++ "': " ++ e))
      | .ok _ =>
        if !col.nullable && value.isNull then
          .error (.validation
            ("Column '" ++ col.name ++ "' does not allow NULL values"))
        else
          match createInstanceColumnLoop rest props (param_idx + 1) with
          | .error e => .error e
          | .ok (names, phs, idx') =>
            .ok (quote_identifier col.name :: names,
                 ("$" ++ Nat.repr param_idx) :: phs, idx')
    | none =>
      if !col.nullable && col.default_value = none then
        .error (.validation
          ("Required column '" ++ col.name ++ "' is missing"))
      else
        createInstanceColumnLoop rest props param_idx

/-- `store.rs` `create_instance`, pure prefix: schema lookup (modelled
by an explicit `Option Schema`), the JSON-object check, per-column
validation, and the `INSERT` with a column list containing the auto
`id` (when enabled) followed by only the columns present in
`properties`. -/
def create_instance_plan (config : StoreConfig) (lookup : Option Schema)
    (schema_name : String) (properties : Json) :
    Except ObjectStoreError SingleInsertPlan :=
  match lookup with
  | none => .error (.schemaNotFound schema_name)
  | some schema =>
    match properties with
    | .obj properties_obj =>
      let start : List String × List String × Nat :=
        if config.auto_columns.id then (["id"], ["$1"], 2) else ([], [], 1)
      match createInstanceColumnLoop schema.columns properties_obj
              start.2.2 with
      | .error e => .error e
      | .ok (names, phs, _) =>
        let column_names := start.1 ++ names
        let placeholders := start.2.1 ++ phs
        .ok { column_names, placeholders
              insert_sql :=
                "INSERT INTO " ++ quote_identifier schema.table_name ++
                  " (" ++ joinSep ", " column_names ++ ") VALUES (" ++
                  joinSep ", " placeholders ++ ")" }
    | _ => .error (.validation "Properties must be a JSON object")

/-- `slice::chunks` for a positive chunk size (both bulk operations
compute `chunk_size = max (32000 / params_per_row) 1 ≥ 1`; the inner
`max n 1` keeps the function total without changing any reachable
case). -/
def chunksOf (n : Nat) (l : List α) : List (List α) :=
  match l with
  | [] => []
  | x :: xs => (x :: xs).take (max n 1) :: chunksOf n ((x :: xs).drop (max n 1))
termination_by l.length
decreasing_by
  simp only [List.length_drop, List.length_cons]
  omega

/-- `${k}, ${k+1}, …` — the placeholder group for one row
(`id` placeholder first when the auto `id` column is enabled), plus the
next free index. -/
def rowPlaceholderGroup (autoId : Bool) (ncols : Nat) (param_idx : Nat) :
    List String × Nat :=
  let count := (if autoId then 1 else 0) + ncols
  ((List.range count).map fun i => "$" ++ Nat.repr (param_idx + i),
   param_idx + count)

/-- The `VALUES (…), (…), …` placeholder groups for one chunk,
numbering from `$1`. -/
def chunkPlaceholders (autoId : Bool) (ncols : Nat) :
    Nat → Nat → List String
  | 0, _ => []
  | rows + 1, param_idx =>
    let (group, idx') := rowPlaceholderGroup autoId ncols param_idx
    ("(" ++ joinSep ", " group ++ ")") ::
      chunkPlaceholders autoId ncols rows idx'

/-- Per-row validation loop of `create_instances` (`store.rs` lines
949-979): each instance must be a JSON object; present values must
validate; a null for a non-nullable column and a missing required
column without default are rejected — all errors carry the row index. -/
def createInstancesValidate (columns : List ColumnDefinition) :
    List Json → Nat →
    Except ObjectStoreError (List (List (String × Json)))
  | [], _ => .ok []
  | inst :: rest, idx =>
    match inst with
    | .obj properties_obj =>
      let colCheck : List ColumnDefinition → Except ObjectStoreError Unit :=
        fun cols =>
          cols.foldlM (fun _ col =>
            match fieldsLookup col.name properties_obj with
            | some value =>
              match col.column_type.validate_value value with
              | .error e =>
                .error (.validation ("Instance at index " ++ Nat.repr idx ++
                  ": Invalid value for column '" ++ col.name ++ "': " ++ e))
              | .ok _ =>
                if !col.nullable && value.isNull then
                  .error (.validation ("Instance at index " ++ Nat.repr idx ++
                    ": Column '" ++ col.name ++ "' does not allow NULL values"))
                else .ok ()
            | none =>
              if !col.nullable && col.default_value = none then
                .error (.validation ("Instance at index " ++ Nat.repr idx ++
                  ": Required column '" ++ col.name ++ "' is missing"))
              else .ok ()) ()
      match colCheck columns with
      | .error e => .error e
      | .ok _ =>
        match createInstancesValidate columns rest (idx + 1) with
        | .error e => .error e
        | .ok validated => .ok (properties_obj :: validated)
    | _ =>
      .error (.validation ("Instance at index " ++ Nat.repr idx ++
        " must be a JSON object"))

/-- The bind list for one row of a bulk insert/upsert (`store.rs` lines
1030-1041 and 1207-1217): the auto `id` bind is implicit (a fresh
uuid); then, for every schema column in order, the property value when
present and SQL `NULL` (`None::<String>`) otherwise. -/
def bulkRowBinds (columns : List ColumnDefinition)
    (properties_obj : List (String × Json)) : List (Option Json) :=
  columns.map fun col => fieldsLookup col.name properties_obj

/-- Outcome of the pure prefix of a bulk operation: an early return
with a count, or the SQL plan handed to the transaction. -/
inductive BulkOutcome (α : Type) where
  | count (n : Int) : BulkOutcome α
  | plan (p : α) : BulkOutcome α

/-- The plan of a bulk `create_instances` call. -/
structure BulkInsertPlan where
  column_names : List String
  chunk_size : Nat
  chunk_sqls : List String
  row_binds : List (List (Option Json))

/-- `store.rs` `create_instances`, pure prefix: the empty-input early
return (before the schema lookup), the lookup, whole-batch
pre-validation, the column list (auto `id` then every schema column),
chunking, and the per-chunk multi-row `INSERT`. -/
def create_instances_model (config : StoreConfig)
    (lookup : String → Option Schema) (schema_name : String)
    (instances : List Json) :
    Except ObjectStoreError (BulkOutcome BulkInsertPlan) :=
  if instances.isEmpty then
    .ok (.count 0)
  else
    match lookup schema_name with
    | none => .error (.schemaNotFound schema_name)
    | some schema =>
      match createInstancesValidate schema.columns instances 0 with
      | .error e => .error e
      | .ok validated =>
        let params_per_row := 1 + schema.columns.length
        let chunk_size := max (32000 / max params_per_row 1) 1
        let column_names :=
          (if config.auto_columns.id then ["id"] else []) ++
          schema.columns.map fun col => quote_identifier col.name
        let chunks := chunksOf chunk_size validated
        let chunk_sqls := chunks.map fun chunk =>
          "INSERT INTO " ++ quote_identifier schema.table_name ++ " (" ++
            joinSep ", " column_names ++ ") VALUES " ++
            joinSep ", "
              (chunkPlaceholders config.auto_columns.id
                schema.columns.length chunk.length 1)
        .ok (.plan { column_names, chunk_size, chunk_sqls
                     row_binds := validated.map (bulkRowBinds schema.columns) })

/-- Per-row validation loop of `upsert_instances` (`store.rs` lines
1103-1121): each instance must be a JSON object and present values must
validate; unlike `create_instances` there is no null-vs-nullable and no
missing-required check. -/
def upsertInstancesValidate (columns : List ColumnDefinition) :
    List Json → Nat →
    Except ObjectStoreError (List (List (String × Json)))
  | [], _ => .ok []
  | inst :: rest, idx =>
    match inst with
    | .obj properties_obj =>
      let colCheck : Except ObjectStoreError Unit :=
        columns.foldlM (fun _ col =>
          match fieldsLookup col.name properties_obj with
          | some value =>
            match col.column_type.validate_value value with
            | .error e =>
              .error (.validation ("Instance at index " ++ Nat.repr idx ++
                ": Invalid value for column '" ++ col.name ++ "': " ++ e))
            | .ok _ => .ok ()
          | none => .ok ()) ()
      match colCheck with
      | .error e => .error e
      | .ok _ =>
        match upsertInstancesValidate columns rest (idx + 1) with
        | .error e => .error e
        | .ok validated => .ok (properties_obj :: validated)
    | _ =>
      .error (.validation ("Instance at index " ++ Nat.repr idx ++
        " must be a JSON object"))

/-- The plan of a bulk `upsert_instances` call. -/
structure UpsertPlan where
  column_names : List String
  update_sets : List String
  chunk_size : Nat
  chunk_sqls : List String
  row_binds : List (List (Option Json))

/-- `store.rs` `upsert_instances`, pure prefix: empty-input early
return, empty-conflict-column check (in that order), schema lookup,
conflict-column existence check, whole-batch validation, and the
per-chunk `INSERT … ON CONFLICT` — `DO NOTHING` exactly when the
`DO UPDATE SET` assignment list is empty, which requires every schema
column to be a conflict column AND the `updated_at` auto-column to be
disabled (otherwise `updated_at = NOW()` is always appended). -/
def upsert_instances_model (config : StoreConfig)
    (lookup : String → Option Schema) (schema_name : String)
    (instances : List Json) (conflict_columns : List String) :
    Except ObjectStoreError (BulkOutcome UpsertPlan) :=
  if instances.isEmpty then
    .ok (.count 0)
  else if conflict_columns.isEmpty then
    .error (.validation "At least one conflict column must be specified")
  else
    match lookup schema_name with
    | none => .error (.schemaNotFound schema_name)
    | some schema =>
      match conflict_columns.find? (fun col_name =>
          col_name ≠ "id" &&
            !(schema.columns.any fun c => c.name = col_name)) with
      | some bad =>
        .error (.validation
          ("Conflict column '" ++ bad ++ "' does not exist in schema"))
      | none =>
        match upsertInstancesValidate schema.columns instances 0 with
        | .error e => .error e
        | .ok validated =>
          let column_names :=
            (if config.auto_columns.id then ["id"] else []) ++
            schema.columns.map fun col => quote_identifier col.name
          let conflict_cols := conflict_columns.map quote_identifier
          let update_sets :=
            ((schema.columns.filter fun col =>
                !(conflict_columns.contains col.name)).map fun col =>
              quote_identifier col.name ++ " = EXCLUDED." ++
                quote_identifier col.name) ++
            (if config.auto_columns.updated_at then
              ["updated_at = NOW()"] else [])
          let params_per_row := 1 + schema.columns.length
          let chunk_size := max (32000 / max params_per_row 1) 1
          let chunks := chunksOf chunk_size validated
          let chunk_sqls := chunks.map fun chunk =>
            let values_part :=
              joinSep ", "
                (chunkPlaceholders config.auto_columns.id
                  schema.columns.length chunk.length 1)
            if update_sets.isEmpty then
              "INSERT INTO " ++ quote_identifier schema.table_name ++
                " (" ++ joinSep ", " column_names ++ ") VALUES " ++
                values_part ++ " ON CONFLICT (" ++
                joinSep ", " conflict_cols ++ ") DO NOTHING"
            else
              "INSERT INTO " ++ quote_identifier schema.table_name ++
                " (" ++ joinSep ", " column_names ++ ") VALUES " ++
                values_part ++ " ON CONFLICT (" ++
                joinSep ", " conflict_cols ++ ") DO UPDATE SET " ++
                joinSep ", " update_sets
          .ok (.plan { column_names, update_sets, chunk_size, chunk_sqls
                       row_binds :=
                         validated.map (bulkRowBinds schema.columns) })

/-! ## Placeholder scanning

`$n` placeholders of a SQL fragment, read off the character list: a
`$` followed by an optional `-` and a maximal run of decimal digits.
The compiler renders its `i32` offset with `format!("${}", off)`, i.e.
`'$' ++ Int.repr off`, so the scanner values are integers. -/

theorem length_dropWhile_le (p : Char → Bool) (l : List Char) :
    (l.dropWhile p).length ≤ l.length := by
  induction l with
  | nil => simp
  | cons c rest ih =>
    by_cases hc : p c
    · simp only [List.dropWhile_cons, hc, if_true]
      simp only [List.length_cons]
      omega
    · simp [List.dropWhile_cons, hc]

/-- The placeholder numbers occurring in a character list, in order. -/
def scanPH : List Char → List Int
  | [] => []
  | c :: rest =>
    if c = '$' then
      match h3 : rest with
      | [] => []
      | c2 :: r2 =>
        if c2 = '-' then
          let ds := r2.takeWhile Char.isDigit
          if ds.isEmpty then scanPH rest
          else (-(digitsVal ds) : Int) :: scanPH (r2.dropWhile Char.isDigit)
        else
          let ds := rest.takeWhile Char.isDigit
          if ds.isEmpty then scanPH rest
          else (digitsVal ds : Int) :: scanPH (rest.dropWhile Char.isDigit)
    else scanPH rest
termination_by l => l.length
decreasing_by
all_goals simp_wf
all_goals try subst h3
all_goals
  first
  | (have hd1 := length_dropWhile_le Char.isDigit r2
     have hd2 := length_dropWhile_le Char.isDigit (c2 :: r2)
     have hlen : (c2 :: r2).length = r2.length + 1 := rfl
     omega)
  | omega

/-- Placeholders of a SQL fragment. -/
def scanS (s : String) : List Int :=
  scanPH s.data

/-- `[off, off+1, …, off+n-1]`. -/
def intRange (off : Int) (n : Nat) : List Int :=
  (List.range n).map fun (i : Nat) => off + (i : Int)

/-- No `$` occurs in the list. -/
def noDollar (l : List Char) : Prop :=
  ∀ c ∈ l, c ≠ '$'

instance noDollarDecidable (l : List Char) : Decidable (noDollar l) :=
  inferInstanceAs (Decidable (∀ c ∈ l, c ≠ '$'))

/-- A list that a placeholder cannot leak into from the left: empty or
starting with a non-digit that is not `-`. -/
def goodBreak : List Char → Prop
  | [] => True
  | c :: _ => c.isDigit = false ∧ c ≠ '-'

theorem strData_append (a b : String) : (a ++ b).data = a.data ++ b.data := rfl

theorem noDollar_append {a b : List Char} (ha : noDollar a) (hb : noDollar b) :
    noDollar (a ++ b) := by
  intro c hc
  rcases List.mem_append.mp hc with h | h
  · exact ha c h
  · exact hb c h

theorem scanPH_nil : scanPH [] = [] := by
  rw [scanPH.eq_def]

theorem scanPH_cons_not_dollar {c : Char} (rest : List Char) (h : ¬(c = '$')) :
    scanPH (c :: rest) = scanPH rest := by
  rw [scanPH.eq_def]
  simp [h]

theorem scanPH_dollar_nil : scanPH ['$'] = [] := by
  rw [scanPH.eq_def]
  simp

theorem scanPH_dollar_dash (r2 : List Char) :
    scanPH ('$' :: '-' :: r2) =
      if (r2.takeWhile Char.isDigit).isEmpty then scanPH ('-' :: r2)
      else (-(digitsVal (r2.takeWhile Char.isDigit)) : Int) ::
        scanPH (r2.dropWhile Char.isDigit) := by
  rw [scanPH.eq_def]
  simp

theorem scanPH_dollar_other {c2 : Char} (r2 : List Char) (h : ¬(c2 = '-')) :
    scanPH ('$' :: c2 :: r2) =
      if ((c2 :: r2).takeWhile Char.isDigit).isEmpty then scanPH (c2 :: r2)
      else (digitsVal ((c2 :: r2).takeWhile Char.isDigit) : Int) ::
        scanPH ((c2 :: r2).dropWhile Char.isDigit) := by
  rw [scanPH.eq_def]
  simp [h]

theorem scanPH_nil_of_noDollar {l : List Char} (h : noDollar l) :
    scanPH l = [] := by
  induction l with
  | nil => exact scanPH_nil
  | cons c rest ih =>
    rw [scanPH_cons_not_dollar rest (h c (List.mem_cons_self c rest))]
    exact ih fun x hx => h x (List.mem_cons_of_mem c hx)

theorem scanPH_append_noDollar (a b : List Char)
    (h : noDollar a) : scanPH (a ++ b) = scanPH b := by
  induction a with
  | nil => simp
  | cons c rest ih =>
    rw [List.cons_append,
        scanPH_cons_not_dollar _ (h c (List.mem_cons_self c rest))]
    exact ih fun x hx => h x (List.mem_cons_of_mem c hx)

theorem takeWhile_append_all {p : Char → Bool} {a : List Char}
    (b : List Char) (h : ∀ c ∈ a, p c) :
    (a ++ b).takeWhile p = a ++ b.takeWhile p := by
  induction a with
  | nil => simp
  | cons c rest ih =>
    have hc := h c (List.mem_cons_self c rest)
    simp only [List.cons_append, List.takeWhile_cons, hc, if_true]
    rw [ih fun x hx => h x (List.mem_cons_of_mem c hx)]

theorem dropWhile_append_all {p : Char → Bool} {a : List Char}
    (b : List Char) (h : ∀ c ∈ a, p c) :
    (a ++ b).dropWhile p = b.dropWhile p := by
  induction a with
  | nil => simp
  | cons c rest ih =>
    have hc := h c (List.mem_cons_self c rest)
    simp only [List.cons_append, List.dropWhile_cons, hc, if_true]
    exact ih fun x hx => h x (List.mem_cons_of_mem c hx)

theorem takeWhile_all_eq {p : Char → Bool} {a : List Char}
    (h : ∀ c ∈ a, p c) : a.takeWhile p = a := by
  induction a with
  | nil => rfl
  | cons c rest ih =>
    have hc := h c (List.mem_cons_self c rest)
    simp only [List.takeWhile_cons, hc, if_true]
    rw [ih fun x hx => h x (List.mem_cons_of_mem c hx)]

theorem dropWhile_all_eq {p : Char → Bool} {a : List Char}
    (h : ∀ c ∈ a, p c) : a.dropWhile p = [] := by
  induction a with
  | nil => rfl
  | cons c rest ih =>
    have hc := h c (List.mem_cons_self c rest)
    simp only [List.dropWhile_cons, hc, if_true]
    exact ih fun x hx => h x (List.mem_cons_of_mem c hx)

theorem takeWhile_append_not {p : Char → Bool} {a : List Char}
    (b : List Char) (h : ∃ c ∈ a, ¬(p c)) :
    (a ++ b).takeWhile p = a.takeWhile p ∧
      (a ++ b).dropWhile p = a.dropWhile p ++ b := by
  induction a with
  | nil => obtain ⟨c, hc, _⟩ := h; cases hc
  | cons c rest ih =>
    by_cases hc : p c
    · have hrest : ∃ x ∈ rest, ¬(p x) := by
        obtain ⟨x, hx, hpx⟩ := h
        rcases List.mem_cons.mp hx with rfl | hx'
        · exact absurd hc hpx
        · exact ⟨x, hx', hpx⟩
      obtain ⟨iht, ihd⟩ := ih hrest
      constructor
      · simp only [List.cons_append, List.takeWhile_cons, hc, if_true, iht]
      · simp only [List.cons_append, List.dropWhile_cons, hc, if_true, ihd]
    · constructor
      · simp [List.takeWhile_cons, hc]
      · simp [List.dropWhile_cons, hc]

theorem goodBreak_takeWhile {b : List Char} (h : goodBreak b) :
    b.takeWhile Char.isDigit = [] := by
  cases b with
  | nil => rfl
  | cons c rest =>
    obtain ⟨hd, _⟩ := h
    simp [List.takeWhile_cons, hd]

theorem goodBreak_dropWhile {b : List Char} (h : goodBreak b) :
    b.dropWhile Char.isDigit = b := by
  cases b with
  | nil => rfl
  | cons c rest =>
    obtain ⟨hd, _⟩ := h
    simp [List.dropWhile_cons, hd]

/-- Scanning distributes over an append whose right part does not start
with a digit or a `-` (so no placeholder can straddle the boundary). -/
theorem scanPH_append_aux :
    ∀ (n : Nat) (a b : List Char), a.length ≤ n → goodBreak b →
      scanPH (a ++ b) = scanPH a ++ scanPH b := by
  intro n
  induction n with
  | zero =>
    intro a b ha _
    have : a = [] := List.length_eq_zero.mp (Nat.le_zero.mp ha)
    subst this
    simp [scanPH_nil]
  | succ n ih =>
    intro a b ha hb
    cases a with
    | nil => simp [scanPH_nil]
    | cons c a' =>
      by_cases hc : c = '$'
      · subst hc
        cases a' with
        | nil =>
          cases b with
          | nil => simp [scanPH_dollar_nil, scanPH_nil]
          | cons b0 b' =>
            obtain ⟨hbd, hbm⟩ := hb
            have hleft : ('$' :: ([] : List Char)) ++ (b0 :: b') =
                '$' :: b0 :: b' := rfl
            rw [hleft, scanPH_dollar_other b' hbm]
            have ht : (b0 :: b').takeWhile Char.isDigit = [] :=
              goodBreak_takeWhile ⟨hbd, hbm⟩
            rw [ht]
            simp [scanPH_dollar_nil]
        | cons c2 a2 =>
          have hlen : a2.length + 2 ≤ n + 1 := by
            simpa [List.length_cons] using ha
          by_cases hc2 : c2 = '-'
          · subst hc2
            have hleft : ('$' :: '-' :: a2) ++ b = '$' :: '-' :: (a2 ++ b) := rfl
            rw [hleft, scanPH_dollar_dash (a2 ++ b), scanPH_dollar_dash a2]
            by_cases hall : ∀ x ∈ a2, Char.isDigit x
            · have ht1 := takeWhile_append_all b hall
              have htb : b.takeWhile Char.isDigit = [] := goodBreak_takeWhile hb
              have ht2 := takeWhile_all_eq hall
              have hd1 := dropWhile_append_all b hall
              have hdb : b.dropWhile Char.isDigit = b := goodBreak_dropWhile hb
              have hd2 := dropWhile_all_eq hall
              rw [ht1, htb, List.append_nil, ht2, hd1, hdb, hd2]
              cases a2 with
              | nil =>
                simp only [List.isEmpty_nil, if_true, List.nil_append]
                rw [scanPH_cons_not_dollar _ (by decide),
                    scanPH_cons_not_dollar _ (by decide), scanPH_nil]
                simp [scanPH_nil]
              | cons d a3 =>
                have hne : ¬((d :: a3 : List Char).isEmpty = true) := by simp
                rw [if_neg hne, if_neg hne, scanPH_nil]
                simp
            · have hex : ∃ x ∈ a2, ¬(Char.isDigit x) := by
                push_neg at hall; exact hall
              obtain ⟨ht3, hd3⟩ := takeWhile_append_not b hex
              rw [ht3, hd3]
              by_cases hte : (a2.takeWhile Char.isDigit).isEmpty = true
              · rw [if_pos hte, if_pos hte,
                    scanPH_cons_not_dollar _ (by decide),
                    scanPH_cons_not_dollar _ (by decide)]
                exact ih a2 b (by omega) hb
              · rw [if_neg hte, if_neg hte, List.cons_append]
                congr 1
                have hd4 := length_dropWhile_le Char.isDigit a2
                exact ih (a2.dropWhile Char.isDigit) b (by omega) hb
          · have hleft : ('$' :: c2 :: a2) ++ b = '$' :: c2 :: (a2 ++ b) := rfl
            rw [hleft, scanPH_dollar_other (a2 ++ b) hc2,
                scanPH_dollar_other a2 hc2]
            have hrw : c2 :: (a2 ++ b) = (c2 :: a2) ++ b := rfl
            rw [hrw]
            by_cases hall : ∀ x ∈ (c2 :: a2), Char.isDigit x
            · have ht1 := takeWhile_append_all b hall
              have htb : b.takeWhile Char.isDigit = [] := goodBreak_takeWhile hb
              have ht2 := takeWhile_all_eq hall
              have hd1 := dropWhile_append_all b hall
              have hdb : b.dropWhile Char.isDigit = b := goodBreak_dropWhile hb
              have hd2 := dropWhile_all_eq hall
              rw [ht1, htb, List.append_nil, ht2, hd1, hdb, hd2]
              have hne : ¬((c2 :: a2 : List Char).isEmpty = true) := by simp
              rw [if_neg hne, if_neg hne, scanPH_nil]
              simp
            · have hex : ∃ x ∈ (c2 :: a2), ¬(Char.isDigit x) := by
                push_neg at hall; exact hall
              obtain ⟨ht3, hd3⟩ := takeWhile_append_not b hex
              rw [ht3, hd3]
              by_cases hte : ((c2 :: a2).takeWhile Char.isDigit).isEmpty = true
              · rw [if_pos hte, if_pos hte]
                exact ih (c2 :: a2) b (by simp only [List.length_cons]; omega) hb
              · rw [if_neg hte, if_neg hte, List.cons_append]
                congr 1
                have hd4 := length_dropWhile_le Char.isDigit (c2 :: a2)
                have hl2 : (c2 :: a2 : List Char).length = a2.length + 1 := rfl
                exact ih ((c2 :: a2).dropWhile Char.isDigit) b (by omega) hb
      · have hlen : a'.length + 1 ≤ n + 1 := by
          simpa [List.length_cons] using ha
        rw [List.cons_append, scanPH_cons_not_dollar _ hc,
            scanPH_cons_not_dollar _ hc]
        exact ih a' b (by omega) hb

theorem scanPH_append {a b : List Char} (hb : goodBreak b) :
    scanPH (a ++ b) = scanPH a ++ scanPH b :=
  scanPH_append_aux a.length a b (Nat.le_refl _) hb

/-! ## Decimal rendering facts -/

theorem digitsVal_append_singleton (ds : List Char) (c : Char) :
    digitsVal (ds ++ [c]) = 10 * digitsVal ds + (c.toNat - 48) := by
  simp [digitsVal, List.foldl_append]

theorem digitChar_isDigit {m : Nat} (h : m < 10) :
    (Nat.digitChar m).isDigit = true := by
  interval_cases m <;> decide

theorem digitChar_toNat {m : Nat} (h : m < 10) :
    (Nat.digitChar m).toNat = 48 + m := by
  interval_cases m <;> decide

theorem isDigit_ne_dash {c : Char} (h : c.isDigit = true) : c ≠ '-' := by
  intro heq
  subst heq
  simp [Char.isDigit] at h

theorem isDigit_ne_dollar {c : Char} (h : c.isDigit = true) : c ≠ '$' := by
  intro heq
  subst heq
  simp [Char.isDigit] at h

/-- With enough fuel, `Nat.toDigitsCore` at base 10 pushes a non-empty
digit run valuing the input in front of its accumulator. -/
theorem toDigitsRun (fuel : Nat) : ∀ (k : Nat) (acc : List Char),
    k < fuel →
    ∃ r : List Char, r ≠ [] ∧ (∀ c ∈ r, c.isDigit = true) ∧
      digitsVal r = k ∧ Nat.toDigitsCore 10 fuel k acc = r ++ acc := by
  induction fuel with
  | zero => intro k acc hk; omega
  | succ fuel ih =>
    intro k acc hk
    rw [Nat.toDigitsCore]
    by_cases hdiv : k / 10 = 0
    · simp only [hdiv, if_true]
      refine ⟨[Nat.digitChar (k % 10)], by simp, ?_, ?_, rfl⟩
      · intro c hc
        rcases List.mem_singleton.mp hc with rfl
        exact digitChar_isDigit (Nat.mod_lt _ (by omega))
      · simp only [digitsVal, List.foldl_cons, List.foldl_nil]
        rw [digitChar_toNat (Nat.mod_lt _ (by omega))]
        omega
    · simp only [hdiv, if_false]
      obtain ⟨r, rne, rdig, rval, rrun⟩ :=
        ih (k / 10) (Nat.digitChar (k % 10) :: acc) (by omega)
      refine ⟨r ++ [Nat.digitChar (k % 10)], by simp, ?_, ?_, ?_⟩
      · intro c hc
        rcases List.mem_append.mp hc with hc1 | hc1
        · exact rdig c hc1
        · rcases List.mem_singleton.mp hc1 with rfl
          exact digitChar_isDigit (Nat.mod_lt _ (by omega))
      · rw [digitsVal_append_singleton, rval,
            digitChar_toNat (Nat.mod_lt _ (by omega))]
        omega
      · rw [rrun, List.append_assoc, List.singleton_append]

/-- The decimal rendering of a natural number: non-empty, all digits,
valuing back to the number. -/
theorem natRepr_spec (n : Nat) :
    (Nat.repr n).data ≠ [] ∧ (∀ c ∈ (Nat.repr n).data, c.isDigit = true) ∧
      digitsVal (Nat.repr n).data = n := by
  obtain ⟨r, rne, rdig, rval, rrun⟩ := toDigitsRun (n + 1) n [] (by omega)
  have hdata : (Nat.repr n).data = r := by
    show (Nat.toDigits 10 n).asString.data = r
    rw [Nat.toDigits, rrun, List.append_nil]
    rfl
  rw [hdata]
  exact ⟨rne, rdig, rval⟩

theorem intRepr_nonneg {off : Int} (h : 0 ≤ off) :
    (Int.repr off).data = (Nat.repr off.toNat).data := by
  cases off with
  | ofNat m => rfl
  | negSucc m => exact absurd h (by exact Int.not_le.mpr (Int.negSucc_lt_zero m))

theorem intRepr_neg {off : Int} (h : off < 0) :
    (Int.repr off).data = '-' :: (Nat.repr (-off).toNat).data := by
  cases off with
  | ofNat m => exact absurd h (by exact Int.not_lt.mpr (Int.ofNat_nonneg m))
  | negSucc m =>
    have h1 : (-(Int.negSucc m)).toNat = m + 1 := by
      rw [Int.neg_negSucc]
      rfl
    show ("-" ++ Nat.repr (m + 1)).data = _
    rw [h1]
    rfl

/-- Scanning `'$' ++ <decimal of off> ++ tail` (the shape every
placeholder the compiler emits has) yields `off` followed by the scan
of the tail. -/
theorem scanPH_placeholder (off : Int) (tail : List Char)
    (htail : goodBreak tail) :
    scanPH ('$' :: (Int.repr off).data ++ tail) = off :: scanPH tail := by
  rcases le_or_lt 0 off with hpos | hneg
  · obtain ⟨hne, hdig, hval⟩ := natRepr_spec off.toNat
    rw [intRepr_nonneg hpos]
    cases hds : (Nat.repr off.toNat).data with
    | nil => exact absurd hds hne
    | cons d0 ds' =>
      rw [hds] at hdig hval
      have hd0 : d0.isDigit = true := hdig d0 (List.mem_cons_self _ _)
      have hnd : ¬(d0 = '-') := isDigit_ne_dash hd0
      have hstep : ('$' :: (d0 :: ds') ++ tail) =
          '$' :: d0 :: (ds' ++ tail) := rfl
      rw [hstep, scanPH_dollar_other (ds' ++ tail) hnd]
      have hrw : d0 :: (ds' ++ tail) = (d0 :: ds') ++ tail := rfl
      rw [hrw]
      have hall : ∀ c ∈ (d0 :: ds'), Char.isDigit c := hdig
      have ht1 := takeWhile_append_all tail hall
      have htb : tail.takeWhile Char.isDigit = [] := goodBreak_takeWhile htail
      have ht2 := takeWhile_all_eq hall
      have hd1 := dropWhile_append_all tail hall
      have hdb : tail.dropWhile Char.isDigit = tail := goodBreak_dropWhile htail
      rw [ht1, htb, List.append_nil, hd1, hdb]
      have hne2 : ¬((d0 :: ds' : List Char).isEmpty = true) := by simp
      rw [if_neg hne2, hval]
      congr 1
      omega
  · obtain ⟨hne, hdig, hval⟩ := natRepr_spec (-off).toNat
    rw [intRepr_neg hneg]
    cases hds : (Nat.repr (-off).toNat).data with
    | nil => exact absurd hds hne
    | cons d0 ds' =>
      rw [hds] at hdig hval
      have hstep : ('$' :: ('-' :: d0 :: ds') ++ tail) =
          '$' :: '-' :: ((d0 :: ds') ++ tail) := rfl
      rw [hstep, scanPH_dollar_dash ((d0 :: ds') ++ tail)]
      have hall : ∀ c ∈ (d0 :: ds'), Char.isDigit c := hdig
      have ht1 := takeWhile_append_all tail hall
      have htb : tail.takeWhile Char.isDigit = [] := goodBreak_takeWhile htail
      have ht2 := takeWhile_all_eq hall
      have hd1 := dropWhile_append_all tail hall
      have hdb : tail.dropWhile Char.isDigit = tail := goodBreak_dropWhile htail
      rw [ht1, htb, List.append_nil, hd1, hdb]
      have hne2 : ¬((d0 :: ds' : List Char).isEmpty = true) := by simp
      rw [if_neg hne2, hval]
      congr 1
      omega

/-! ## `intRange` facts -/

theorem intRange_length (off : Int) (n : Nat) :
    (intRange off n).length = n := by
  rw [intRange, List.length_map, List.length_range]

theorem intRange_zero (off : Int) : intRange off 0 = [] := rfl

theorem intRange_one (off : Int) : intRange off 1 = [off] := by
  have h1 : List.range 1 = [0] := rfl
  rw [intRange, h1]
  simp

theorem intRange_append (off : Int) (n m : Nat) :
    intRange off n ++ intRange (off + n) m = intRange off (n + m) := by
  rw [intRange, intRange, intRange, List.range_add, List.map_append,
    List.map_map]
  congr 1
  apply List.map_congr_left
  intro i _
  simp only [Function.comp_apply]
  push_cast
  ring

theorem intRange_nodup (off : Int) (n : Nat) :
    (intRange off n).Nodup := by
  rw [intRange]
  refine List.Nodup.map ?_ (List.nodup_range n)
  intro i j hij
  have h2 : (i : Int) = j := by exact add_left_cancel hij
  exact_mod_cast h2

theorem intRange_dedup_length (off : Int) (n : Nat) :
    (intRange off n).dedup.length = n := by
  rw [List.Nodup.dedup (intRange_nodup off n), intRange_length]

/-! ## Scanning the fragments the compiler emits -/

/-- A fragment shape every compiled clause has: non-empty, and not
starting with a digit or `-` (so it can be safely appended after a
placeholder of an earlier clause). -/
def goodFrag (f : String) : Prop :=
  f.data ≠ [] ∧ goodBreak f.data

theorem goodBreak_cons {c : Char} (rest : List Char) (hd : c.isDigit = false)
    (hm : c ≠ '-') : goodBreak (c :: rest) := ⟨hd, hm⟩

theorem validField_noDollar {field : String} (h : validField field = true) :
    noDollar field.data := by
  intro c hc heq
  subst heq
  have h2 : validFieldChar '$' = true := List.all_eq_true.mp h '$' hc
  exact absurd h2 (by decide)

theorem goodFrag_append_left {a : String} (b : String) (ha : goodFrag a) :
    goodFrag (a ++ b) := by
  obtain ⟨hne, hbr⟩ := ha
  cases hd : a.data with
  | nil => exact absurd hd hne
  | cons c t =>
    rw [hd] at hbr
    constructor
    · rw [strData_append, hd]
      simp
    · rw [strData_append, hd]
      exact ⟨hbr.1, hbr.2⟩

theorem goodBreak_append_left {s : List Char} (t : List Char)
    (hne : s ≠ []) (hs : goodBreak s) : goodBreak (s ++ t) := by
  cases s with
  | nil => exact absurd rfl hne
  | cons c r => exact ⟨hs.1, hs.2⟩

theorem goodFrag_dquote (x : String) : goodFrag ("\"" ++ x) := by
  constructor
  · rw [strData_append]
    simp
  · exact goodBreak_cons _ (by decide) (by decide)

theorem goodFrag_lparen (x : String) : goodFrag ("(" ++ x) := by
  constructor
  · rw [strData_append]
    simp
  · exact goodBreak_cons _ (by decide) (by decide)

theorem goodFrag_notkw (x : String) : goodFrag ("NOT (" ++ x) := by
  constructor
  · rw [strData_append]
    simp
  · exact goodBreak_cons _ (by decide) (by decide)

/-- Scan of a SQL fragment with no `$` at all. -/
theorem scanS_noDollar {s : String} (h : noDollar s.data) : scanS s = [] :=
  scanPH_nil_of_noDollar h

/-- Scan of the comparison fragment
`"<field>"::text <op> $<off>::text`. -/
theorem scanS_cmp (field opStr : String) (off : Int)
    (hf : noDollar field.data) (hop : noDollar opStr.data) :
    scanS ("\"" ++ field ++ "\"::text " ++ opStr ++ " $" ++ Int.repr off ++
      "::text") = [off] := by
  have hdata : ("\"" ++ field ++ "\"::text " ++ opStr ++ " $" ++
      Int.repr off ++ "::text").data =
      ("\"".data ++ (field.data ++ ("\"::text ".data ++ (opStr.data ++
        [' '])))) ++ ('$' :: (Int.repr off).data ++ "::text".data) := by
    simp only [strData_append, List.append_assoc]
    rfl
  have hA : noDollar ("\"".data ++ (field.data ++ ("\"::text ".data ++
      (opStr.data ++ [' '])))) :=
    noDollar_append (by decide)
      (noDollar_append hf
        (noDollar_append (by decide) (noDollar_append hop (by decide))))
  rw [scanS, hdata, scanPH_append_noDollar _ _ hA,
    scanPH_placeholder off _ (goodBreak_cons _ (by decide) (by decide)),
    scanPH_nil_of_noDollar (by decide)]

/-- Scan of the `CONTAINS` fragment `"<field>"::text LIKE $<off>::text`. -/
theorem scanS_contains (field : String) (off : Int)
    (hf : noDollar field.data) :
    scanS ("\"" ++ field ++ "\"::text LIKE $" ++ Int.repr off ++ "::text") =
      [off] := by
  have hdata : ("\"" ++ field ++ "\"::text LIKE $" ++ Int.repr off ++
      "::text").data =
      ("\"".data ++ (field.data ++ "\"::text LIKE ".data)) ++
        ('$' :: (Int.repr off).data ++ "::text".data) := by
    simp only [strData_append, List.append_assoc]
    rfl
  have hA : noDollar ("\"".data ++ (field.data ++ "\"::text LIKE ".data)) :=
    noDollar_append (by decide) (noDollar_append hf (by decide))
  rw [scanS, hdata, scanPH_append_noDollar _ _ hA,
    scanPH_placeholder off _ (goodBreak_cons _ (by decide) (by decide)),
    scanPH_nil_of_noDollar (by decide)]

/-- Scan of the `IN` fragment. -/
theorem scanS_in (field : String) (off : Int) (hf : noDollar field.data) :
    scanS ("\"" ++ field ++
      "\"::text = ANY(SELECT jsonb_array_elements_text($" ++ Int.repr off ++
      "::jsonb))") = [off] := by
  have hdata : ("\"" ++ field ++
      "\"::text = ANY(SELECT jsonb_array_elements_text($" ++ Int.repr off ++
      "::jsonb))").data =
      ("\"".data ++ (field.data ++
        "\"::text = ANY(SELECT jsonb_array_elements_text(".data)) ++
        ('$' :: (Int.repr off).data ++ "::jsonb))".data) := by
    simp only [strData_append, List.append_assoc]
    rfl
  have hA : noDollar ("\"".data ++ (field.data ++
      "\"::text = ANY(SELECT jsonb_array_elements_text(".data)) :=
    noDollar_append (by decide) (noDollar_append hf (by decide))
  rw [scanS, hdata, scanPH_append_noDollar _ _ hA,
    scanPH_placeholder off _ (goodBreak_cons _ (by decide) (by decide)),
    scanPH_nil_of_noDollar (by decide)]

/-- Scan of the `NOT_IN` fragment. -/
theorem scanS_notin (field : String) (off : Int) (hf : noDollar field.data) :
    scanS ("NOT (\"" ++ field ++
      "\"::text = ANY(SELECT jsonb_array_elements_text($" ++ Int.repr off ++
      "::jsonb)))") = [off] := by
  have hdata : ("NOT (\"" ++ field ++
      "\"::text = ANY(SELECT jsonb_array_elements_text($" ++ Int.repr off ++
      "::jsonb)))").data =
      ("NOT (\"".data ++ (field.data ++
        "\"::text = ANY(SELECT jsonb_array_elements_text(".data)) ++
        ('$' :: (Int.repr off).data ++ "::jsonb)))".data) := by
    simp only [strData_append, List.append_assoc]
    rfl
  have hA : noDollar ("NOT (\"".data ++ (field.data ++
      "\"::text = ANY(SELECT jsonb_array_elements_text(".data)) :=
    noDollar_append (by decide) (noDollar_append hf (by decide))
  rw [scanS, hdata, scanPH_append_noDollar _ _ hA,
    scanPH_placeholder off _ (goodBreak_cons _ (by decide) (by decide)),
    scanPH_nil_of_noDollar (by decide)]

theorem goodFrag_joinSep {sep : String} {cls : List String}
    (hne : cls ≠ []) (h : ∀ cl ∈ cls, goodFrag cl) :
    goodFrag (joinSep sep cls) := by
  cases cls with
  | nil => exact absurd rfl hne
  | cons x xs =>
    cases xs with
    | nil => exact h x (List.mem_singleton_self x)
    | cons y ys =>
      show goodFrag (x ++ sep ++ joinSep sep (y :: ys))
      exact goodFrag_append_left _
        (goodFrag_append_left _ (h x (List.mem_cons_self _ _)))

theorem goodFrag_lit {lit : String} (x : String) {c : Char} {rest : List Char}
    (hl : lit.data = c :: rest) (hd : c.isDigit = false) (hm : c ≠ '-') :
    goodFrag (lit ++ x) := by
  constructor
  · rw [strData_append, hl]
    simp
  · rw [strData_append, hl]
    exact ⟨hd, hm⟩

theorem cmpOperator_noDollar (op : String) :
    noDollar (cmpOperator op).data := by
  unfold cmpOperator
  split <;> decide

/-- Invariant of the comparison arm: on success the final offset is
initial plus the parameter count, the fragment's placeholders are
exactly the consumed offsets, and the fragment starts safely. -/
theorem buildCmpArm_inv {op : String} {arguments : Option (List Json)}
    {off : Int} {f : String} {ps : List Json} {off' : Int}
    (h : buildCmpArm op arguments off = .ok (f, ps, off')) :
    off' = off + ps.length ∧ scanS f = intRange off ps.length ∧ goodFrag f := by
  unfold buildCmpArm at h
  split at h
  case h_2 => exact Except.noConfusion h
  case h_1 args =>
    split at h
    case h_2 => exact Except.noConfusion h
    case h_1 a0 a1 =>
      split at h
      case h_1 => exact Except.noConfusion h
      case h_2 field hfield =>
        split at h
        · exact Except.noConfusion h
        case isFalse hv =>
          have hvf : validField field = true := by simpa using hv
          split at h
          · split at h
            · cases h
              refine ⟨by simp, ?_, ?_⟩
              · rw [show (([] : List Json)).length = 0 from rfl, intRange_zero]
                apply scanS_noDollar
                have hdata : ("\"" ++ field ++ "\" IS NULL").data =
                    "\"".data ++ (field.data ++ "\" IS NULL".data) := by
                  simp [strData_append]
                rw [hdata]
                exact noDollar_append (by decide)
                  (noDollar_append (validField_noDollar hvf) (by decide))
              · exact goodFrag_append_left _ (goodFrag_dquote field)
            · cases h
              refine ⟨by simp, ?_, ?_⟩
              · rw [show (([] : List Json)).length = 0 from rfl, intRange_zero]
                apply scanS_noDollar
                have hdata : ("\"" ++ field ++ "\" IS NOT NULL").data =
                    "\"".data ++ (field.data ++ "\" IS NOT NULL".data) := by
                  simp [strData_append]
                rw [hdata]
                exact noDollar_append (by decide)
                  (noDollar_append (validField_noDollar hvf) (by decide))
              · exact goodFrag_append_left _ (goodFrag_dquote field)
            · exact Except.noConfusion h
          · cases h
            refine ⟨by simp, ?_, ?_⟩
            · rw [show ([Json.str (valueToParamString a1)].length) = 1 from rfl,
                intRange_one]
              exact scanS_cmp field (cmpOperator op) off
                (validField_noDollar hvf) (cmpOperator_noDollar op)
            · exact goodFrag_append_left _ (goodFrag_append_left _
                (goodFrag_append_left _ (goodFrag_append_left _
                  (goodFrag_append_left _ (goodFrag_dquote field)))))

/-- Invariant of the `CONTAINS` arm. -/
theorem buildContainsArm_inv {arguments : Option (List Json)}
    {off : Int} {f : String} {ps : List Json} {off' : Int}
    (h : buildContainsArm arguments off = .ok (f, ps, off')) :
    off' = off + ps.length ∧ scanS f = intRange off ps.length ∧ goodFrag f := by
  unfold buildContainsArm at h
  split at h
  case h_2 => exact Except.noConfusion h
  case h_1 args =>
    split at h
    case h_2 => exact Except.noConfusion h
    case h_1 a0 a1 =>
      split at h
      case h_1 => exact Except.noConfusion h
      case h_2 field hfield =>
        split at h
        case h_1 => exact Except.noConfusion h
        case h_2 value hvalue =>
          split at h
          · exact Except.noConfusion h
          case isFalse hv =>
            have hvf : validField field = true := by simpa using hv
            cases h
            refine ⟨by simp, ?_, ?_⟩
            · rw [show ([Json.str ("%" ++ value ++ "%")].length) = 1 from rfl,
                intRange_one]
              exact scanS_contains field off (validField_noDollar hvf)
            · exact goodFrag_append_left _ (goodFrag_append_left _
                (goodFrag_append_left _ (goodFrag_dquote field)))

/-- Invariant of the `IN` arm. -/
theorem buildInArm_inv {arguments : Option (List Json)}
    {off : Int} {f : String} {ps : List Json} {off' : Int}
    (h : buildInArm arguments off = .ok (f, ps, off')) :
    off' = off + ps.length ∧ scanS f = intRange off ps.length ∧ goodFrag f := by
  unfold buildInArm at h
  split at h
  case h_2 => exact Except.noConfusion h
  case h_1 args =>
    split at h
    case h_2 => exact Except.noConfusion h
    case h_1 a0 a1 =>
      split at h
      case h_1 => exact Except.noConfusion h
      case h_2 field hfield =>
        split at h
        case h_1 => exact Except.noConfusion h
        case h_2 values hvalues =>
          split at h
          · exact Except.noConfusion h
          case isFalse hv =>
            have hvf : validField field = true := by simpa using hv
            cases h
            refine ⟨by simp, ?_, ?_⟩
            · rw [show ([Json.arr values].length) = 1 from rfl, intRange_one]
              exact scanS_in field off (validField_noDollar hvf)
            · exact goodFrag_append_left _ (goodFrag_append_left _
                (goodFrag_append_left _ (goodFrag_dquote field)))

/-- Invariant of the `NOT_IN` arm. -/
theorem buildNotInArm_inv {arguments : Option (List Json)}
    {off : Int} {f : String} {ps : List Json} {off' : Int}
    (h : buildNotInArm arguments off = .ok (f, ps, off')) :
    off' = off + ps.length ∧ scanS f = intRange off ps.length ∧ goodFrag f := by
  unfold buildNotInArm at h
  split at h
  case h_2 => exact Except.noConfusion h
  case h_1 args =>
    split at h
    case h_2 => exact Except.noConfusion h
    case h_1 a0 a1 =>
      split at h
      case h_1 => exact Except.noConfusion h
      case h_2 field hfield =>
        split at h
        case h_1 => exact Except.noConfusion h
        case h_2 values hvalues =>
          split at h
          · exact Except.noConfusion h
          case isFalse hv =>
            have hvf : validField field = true := by simpa using hv
            cases h
            refine ⟨by simp, ?_, ?_⟩
            · rw [show ([Json.arr values].length) = 1 from rfl, intRange_one]
              exact scanS_notin field off (validField_noDollar hvf)
            · exact goodFrag_append_left _ (goodFrag_append_left _
                (goodFrag_append_left _ (goodFrag_lit field
                  (show ("NOT (\"" : String).data = 'N' ::
                    ['O', 'T', ' ', '(', '"'] from rfl)
                  (by decide) (by decide))))

/-- Invariant of the `IS_EMPTY` arm. -/
theorem buildIsEmptyArm_inv {arguments : Option (List Json)}
    {off : Int} {f : String} {ps : List Json} {off' : Int}
    (h : buildIsEmptyArm arguments off = .ok (f, ps, off')) :
    off' = off + ps.length ∧ scanS f = intRange off ps.length ∧ goodFrag f := by
  unfold buildIsEmptyArm at h
  split at h
  case h_2 => exact Except.noConfusion h
  case h_1 args =>
    split at h
    case h_2 => exact Except.noConfusion h
    case h_1 a0 =>
      split at h
      case h_1 => exact Except.noConfusion h
      case h_2 field hfield =>
        split at h
        · exact Except.noConfusion h
        case isFalse hv =>
          have hvf : validField field = true := by simpa using hv
          cases h
          refine ⟨by simp, ?_, ?_⟩
          · rw [show (([] : List Json)).length = 0 from rfl, intRange_zero]
            apply scanS_noDollar
            have hdata : ("(\"" ++ field ++ "\" IS NULL OR \"" ++ field ++
                "\"::text = '')").data =
                "(\"".data ++ (field.data ++ ("\" IS NULL OR \"".data ++
                  (field.data ++ "\"::text = '')".data))) := by
              simp [strData_append]
            rw [hdata]
            exact noDollar_append (by decide)
              (noDollar_append (validField_noDollar hvf)
                (noDollar_append (by decide)
                  (noDollar_append (validField_noDollar hvf) (by decide))))
          · exact goodFrag_append_left _ (goodFrag_append_left _
              (goodFrag_append_left _
                (goodFrag_lit _ (show ("(\"" : String).data =
                  '(' :: ['"'] from rfl) (by decide) (by decide))))

/-- Invariant of the `IS_NOT_EMPTY` arm. -/
theorem buildIsNotEmptyArm_inv {arguments : Option (List Json)}
    {off : Int} {f : String} {ps : List Json} {off' : Int}
    (h : buildIsNotEmptyArm arguments off = .ok (f, ps, off')) :
    off' = off + ps.length ∧ scanS f = intRange off ps.length ∧ goodFrag f := by
  unfold buildIsNotEmptyArm at h
  split at h
  case h_2 => exact Except.noConfusion h
  case h_1 args =>
    split at h
    case h_2 => exact Except.noConfusion h
    case h_1 a0 =>
      split at h
      case h_1 => exact Except.noConfusion h
      case h_2 field hfield =>
        split at h
        · exact Except.noConfusion h
        case isFalse hv =>
          have hvf : validField field = true := by simpa using hv
          cases h
          refine ⟨by simp, ?_, ?_⟩
          · rw [show (([] : List Json)).length = 0 from rfl, intRange_zero]
            apply scanS_noDollar
            have hdata : ("(\"" ++ field ++ "\" IS NOT NULL AND \"" ++
                field ++ "\"::text != '')").data =
                "(\"".data ++ (field.data ++ ("\" IS NOT NULL AND \"".data ++
                  (field.data ++ "\"::text != '')".data))) := by
              simp [strData_append]
            rw [hdata]
            exact noDollar_append (by decide)
              (noDollar_append (validField_noDollar hvf)
                (noDollar_append (by decide)
                  (noDollar_append (validField_noDollar hvf) (by decide))))
          · exact goodFrag_append_left _ (goodFrag_append_left _
              (goodFrag_append_left _
                (goodFrag_lit _ (show ("(\"" : String).data =
                  '(' :: ['"'] from rfl) (by decide) (by decide))))

/-- Invariant of the `IS_DEFINED` arm. -/
theorem buildIsDefinedArm_inv {arguments : Option (List Json)}
    {off : Int} {f : String} {ps : List Json} {off' : Int}
    (h : buildIsDefinedArm arguments off = .ok (f, ps, off')) :
    off' = off + ps.length ∧ scanS f = intRange off ps.length ∧ goodFrag f := by
  unfold buildIsDefinedArm at h
  split at h
  case h_2 => exact Except.noConfusion h
  case h_1 args =>
    split at h
    case h_2 => exact Except.noConfusion h
    case h_1 a0 =>
      split at h
      case h_1 => exact Except.noConfusion h
      case h_2 field hfield =>
        split at h
        · exact Except.noConfusion h
        case isFalse hv =>
          have hvf : validField field = true := by simpa using hv
          cases h
          refine ⟨by simp, ?_, ?_⟩
          · rw [show (([] : List Json)).length = 0 from rfl, intRange_zero]
            apply scanS_noDollar
            have hdata : ("\"" ++ field ++ "\" IS NOT NULL").data =
                "\"".data ++ (field.data ++ "\" IS NOT NULL".data) := by
              simp [strData_append]
            rw [hdata]
            exact noDollar_append (by decide)
              (noDollar_append (validField_noDollar hvf) (by decide))
          · exact goodFrag_append_left _ (goodFrag_dquote field)

theorem scanPH_joinSep {sep : String} (hsepND : noDollar sep.data)
    (hsepBr : goodBreak sep.data) (hsepNe : sep.data ≠ []) :
    ∀ (cls : List String), (∀ cl ∈ cls, goodFrag cl) →
      scanPH (joinSep sep cls).data =
        (cls.map fun cl => scanPH cl.data).flatten := by
  intro cls
  induction cls with
  | nil =>
    intro _
    show scanPH ("" : String).data = _
    simp [scanPH_nil]
  | cons x xs ih =>
    intro h
    cases xs with
    | nil =>
      show scanPH x.data = _
      simp
    | cons y ys =>
      have hrest : goodFrag (joinSep sep (y :: ys)) :=
        goodFrag_joinSep (by simp)
          (fun cl hcl => h cl (List.mem_cons_of_mem _ hcl))
      show scanPH ((x ++ sep ++ joinSep sep (y :: ys)).data) = _
      have hdata : (x ++ sep ++ joinSep sep (y :: ys)).data =
          x.data ++ (sep.data ++ (joinSep sep (y :: ys)).data) := by
        simp [strData_append, List.append_assoc]
      rw [hdata]
      have hb : goodBreak (sep.data ++ (joinSep sep (y :: ys)).data) :=
        goodBreak_append_left _ hsepNe hsepBr
      rw [scanPH_append hb, scanPH_append_noDollar _ _ hsepND,
        ih (fun cl hcl => h cl (List.mem_cons_of_mem _ hcl))]
      simp

/-- Joint invariant of the condition compiler and its argument loop,
by strong induction on the recursion measure: a successful compilation
consumes exactly `params.length` placeholder offsets, the fragment's
placeholder list is exactly that offset range in order, and the
fragment starts with a safe character. -/
theorem compiler_inv : ∀ (N : Nat),
    (∀ (c : Condition) (off : Int) (f : String) (ps : List Json)
        (off' : Int), 2 * condSize c + 1 ≤ N →
        build_condition_clause c off = .ok (f, ps, off') →
        off' = off + ps.length ∧ scanS f = intRange off ps.length ∧
          goodFrag f) ∧
    (∀ (args : List Json) (off : Int) (cls : List String) (ps : List Json)
        (off' : Int), 2 * jsonSize.argsSize args + 2 ≤ N →
        buildSubClauses args off = .ok (cls, ps, off') →
        off' = off + ps.length ∧
          (cls.map fun cl => scanPH cl.data).flatten =
            intRange off ps.length ∧
          ∀ cl ∈ cls, goodFrag cl) := by
  intro N
  induction N using Nat.strong_induction_on with
  | _ N ih =>
  constructor
  · intro c off f ps off' hm hok
    rw [build_condition_clause.eq_def] at hok
    generalize hop : strToUpper c.op = op0 at hok
    split at hok
    · -- AND
      split at hok
      case h_2 => exact Except.noConfusion hok
      case h_1 args hargs =>
        split at hok
        case h_1 => exact Except.noConfusion hok
        case h_2 res hsub =>
          split at hok
          · exact Except.noConfusion hok
          case isFalse hne =>
            cases hok
            obtain ⟨clauses, params, off2⟩ := res
            have hlt : 2 * jsonSize.argsSize args + 2 < N := by
              have := condSize_some hargs
              omega
            obtain ⟨ho, hscan, hgood⟩ :=
              (ih _ hlt).2 args off clauses params off2 (Nat.le_refl _) hsub
            refine ⟨ho, ?_, ?_⟩
            · rw [scanS, scanPH_joinSep (by decide)
                (goodBreak_cons _ (by decide) (by decide)) (by decide)
                clauses hgood]
              exact hscan
            · refine goodFrag_joinSep ?_ hgood
              simp only [List.isEmpty_eq_true] at hne
              exact hne
    · -- OR
      split at hok
      case h_2 => exact Except.noConfusion hok
      case h_1 args hargs =>
        split at hok
        case h_1 => exact Except.noConfusion hok
        case h_2 res hsub =>
          split at hok
          · exact Except.noConfusion hok
          case isFalse hne =>
            cases hok
            obtain ⟨clauses, params, off2⟩ := res
            have hlt : 2 * jsonSize.argsSize args + 2 < N := by
              have := condSize_some hargs
              omega
            obtain ⟨ho, hscan, hgood⟩ :=
              (ih _ hlt).2 args off clauses params off2 (Nat.le_refl _) hsub
            refine ⟨ho, ?_, ?_⟩
            · rw [scanS, scanPH_joinSep (by decide)
                (goodBreak_cons _ (by decide) (by decide)) (by decide)
                clauses hgood]
              exact hscan
            · refine goodFrag_joinSep ?_ hgood
              simp only [List.isEmpty_eq_true] at hne
              exact hne
    · -- NOT
      split at hok
      case h_2 => exact Except.noConfusion hok
      case h_1 args hargs =>
        split at hok
        case h_2 => exact Except.noConfusion hok
        case h_1 arg hargs1 =>
          split at hok
          case h_2 => exact Except.noConfusion hok
          case h_1 sub hsub =>
            split at hok
            case h_1 => exact Except.noConfusion hok
            case h_2 res hbuild =>
              cases hok
              obtain ⟨clause, subParams, off2⟩ := res
              have hszsub := fromValueCondition_size hsub
              have hlt : 2 * condSize sub + 1 < N := by
                have h1 := condSize_some hargs
                simp only [jsonSize.argsSize] at h1
                omega
              obtain ⟨ho, hscan, hgoodf⟩ :=
                (ih _ hlt).1 sub off clause subParams off2 (Nat.le_refl _)
                  hbuild
              refine ⟨ho, ?_, ?_⟩
              · have hdata : ("NOT (" ++ clause ++ ")").data =
                    "NOT (".data ++ (clause.data ++ ")".data) := by
                  simp [strData_append]
                rw [scanS, hdata,
                  scanPH_append_noDollar _ _
                    (show noDollar ("NOT (" : String).data by decide),
                  scanPH_append (goodBreak_cons _ (by decide) (by decide)),
                  scanPH_nil_of_noDollar
                    (show noDollar (")" : String).data by decide)]
                rw [List.append_nil]
                exact hscan
              · exact goodFrag_append_left _ (goodFrag_notkw clause)
    · -- EQ family
      exact buildCmpArm_inv hok
    · exact buildCmpArm_inv hok
    · exact buildCmpArm_inv hok
    · exact buildCmpArm_inv hok
    · exact buildCmpArm_inv hok
    · exact buildCmpArm_inv hok
    · exact buildContainsArm_inv hok
    · exact buildInArm_inv hok
    · exact buildNotInArm_inv hok
    · exact buildIsEmptyArm_inv hok
    · exact buildIsNotEmptyArm_inv hok
    · exact buildIsDefinedArm_inv hok
    · exact Except.noConfusion hok
  · intro args off cls ps off' hm hok
    rw [buildSubClauses.eq_def] at hok
    split at hok
    · -- args = []
      cases hok
      refine ⟨by simp, ?_, by simp⟩
      simp [intRange_zero]
    · -- arg :: rest
      rename_i arg rest
      split at hok
      case h_1 hskip =>
        have hlt : 2 * jsonSize.argsSize rest + 2 < N := by
          have := jsonSize_pos arg
          simp only [jsonSize.argsSize] at hm
          omega
        exact (ih _ hlt).2 rest off cls ps off' (Nat.le_refl _) hok
      case h_2 sub hsub =>
        split at hok
        case h_1 => exact Except.noConfusion hok
        case h_2 res hbuild =>
          split at hok
          case h_1 => exact Except.noConfusion hok
          case h_2 res2 hrest =>
            cases hok
            obtain ⟨clause, subParams, off1⟩ := res
            obtain ⟨clauses, params, off2⟩ := res2
            have hszsub := fromValueCondition_size hsub
            have hlt1 : 2 * condSize sub + 1 < N := by
              simp only [jsonSize.argsSize] at hm
              omega
            have hlt2 : 2 * jsonSize.argsSize rest + 2 < N := by
              have := jsonSize_pos arg
              simp only [jsonSize.argsSize] at hm
              omega
            obtain ⟨ho1, hscan1, hgood1⟩ :=
              (ih _ hlt1).1 sub off clause subParams off1 (Nat.le_refl _)
                hbuild
            obtain ⟨ho2, hscan2, hgood2⟩ :=
              (ih _ hlt2).2 rest off1 clauses params off2 (Nat.le_refl _)
                hrest
            have hparen : scanPH (("(" ++ clause ++ ")").data) =
                intRange off subParams.length := by
              have hdata : ("(" ++ clause ++ ")").data =
                  "(".data ++ (clause.data ++ ")".data) := by
                simp [strData_append]
              rw [hdata,
                scanPH_append_noDollar _ _
                  (show noDollar ("(" : String).data by decide),
                scanPH_append (goodBreak_cons _ (by decide) (by decide)),
                scanPH_nil_of_noDollar
                  (show noDollar (")" : String).data by decide),
                List.append_nil]
              exact hscan1
            refine ⟨?_, ?_, ?_⟩
            · rw [List.length_append]
              push_cast
              omega
            · simp only [List.map_cons, List.flatten_cons, hparen,
                List.length_append]
              rw [ho1] at hscan2
              rw [hscan2, intRange_append]
            · intro cl hcl
              rcases List.mem_cons.mp hcl with rfl | hcl2
              · exact goodFrag_append_left _ (goodFrag_lparen clause)
              · exact hgood2 cl hcl2


/-! ## Concrete claim instances and spec-modelled comparisons -/

/-- The argument `Eq("status","active")` as a JSON argument value. -/
def eqStatusActiveJson : Json :=
  .obj [("op", .str "EQ"), ("arguments", .arr [.str "status", .str "active"])]

/-- The condition of the spec's worked compilation example:
`And([Eq("status","active"), Or([Gt("price",100), Eq("featured",true)])])`. -/
def c2Condition : Condition :=
  ⟨"AND", some [
    eqStatusActiveJson,
    .obj [("op", .str "OR"), ("arguments", .arr [
      .obj [("op", .str "GT"), ("arguments", .arr [.str "price", .num "100"])],
      .obj [("op", .str "EQ"),
            ("arguments", .arr [.str "featured", .bool true])]])]]⟩

/-- The enum SQL fragment as the SPEC's sentence describes it (this
definition follows the spec's words, not the source, for comparison
with `ColumnType.to_sql_type`): the column name inside the `CHECK` is
the quoted form. -/
def spec_enum_to_sql_type (values : List String) (column_name : String) :
    String :=
  "TEXT CHECK (" ++ quote_identifier column_name ++ " IN (" ++
    joinSep ", " (values.map fun v => "'" ++ escapeSingleQuotes v ++ "'") ++
    "))"

/-- A create-schema request whose table name fails the identifier regex
and whose column name is a reserved keyword. -/
def c5Request : CreateSchemaRequest :=
  { name := "my table", table_name := "my table",
    columns := [{ name := "select", column_type := .string }] }

/-- A column list with a duplicated name (two attribute sets for `a`). -/
def c7DupColumns : List ColumnDefinition :=
  [{ name := "a", column_type := .string },
   { name := "a", column_type := .integer }]

/-- A column list with pairwise distinct names. -/
def c7OkColumns : List ColumnDefinition :=
  [{ name := "a", column_type := .string },
   { name := "b", column_type := .integer, nullable := false }]

/-- A second column list sharing only the name `a` with `c7OkColumns`:
diffing the two exercises an add (`c`), a drop (`b`) and a type
change (`a`). -/
def c7NewColumns : List ColumnDefinition :=
  [{ name := "a", column_type := .integer },
   { name := "c", column_type := .boolean }]

/-- The per-matched-column ALTER statements as the SPEC's sentences
describe them (one statement per differing attribute — type, then
nullability, then default). -/
def spec_alter_changes (quoted_table : String) (oldCol nc : ColumnDefinition) :
    List String :=
  (if oldCol.column_type = nc.column_type then [] else
    ["ALTER TABLE " ++ quoted_table ++ " ALTER COLUMN " ++
      quote_identifier nc.name ++ " TYPE " ++
      nc.column_type.to_sql_type nc.name]) ++
  (if oldCol.nullable = nc.nullable then [] else
    ["ALTER TABLE " ++ quoted_table ++ " ALTER COLUMN " ++
      quote_identifier nc.name ++ " " ++
      (if nc.nullable then "DROP NOT NULL" else "SET NOT NULL")]) ++
  (if oldCol.default_value = nc.default_value then [] else
    match nc.default_value with
    | some default =>
      ["ALTER TABLE " ++ quoted_table ++ " ALTER COLUMN " ++
        quote_identifier nc.name ++ " SET DEFAULT " ++ default]
    | none =>
      ["ALTER TABLE " ++ quoted_table ++ " ALTER COLUMN " ++
        quote_identifier nc.name ++ " DROP DEFAULT"])

/-- The ALTER diff as the SPEC's sentences describe it (this
definition follows the spec's words, not the source, for comparison
with `generate_alter_table`): adds for every name in `new` not in
`old`, then drops for every name in `old` not in `new`, then, for
every name present in both in `new` order, the per-attribute
statements — the old attributes read off the first old column of that
name, the spec's "matched by name" resolved the way a first-match
lookup reads it. -/
def spec_alter_table (table_name : String)
    (old_columns new_columns : List ColumnDefinition) : List String :=
  let quoted_table := quote_identifier table_name
  let old_names := old_columns.map ColumnDefinition.name
  let new_names := new_columns.map ColumnDefinition.name
  ((new_columns.filter fun nc => !(old_names.contains nc.name)).map fun nc =>
    "ALTER TABLE " ++ quoted_table ++ " ADD COLUMN " ++
      format_column_definition nc) ++
  ((old_columns.filter fun oc => !(new_names.contains oc.name)).map fun oc =>
    "ALTER TABLE " ++ quoted_table ++ " DROP COLUMN " ++
      quote_identifier oc.name) ++
  ((new_columns.filter fun nc => old_names.contains nc.name).flatMap fun nc =>
    match old_columns.find? (fun c => c.name = nc.name) with
    | none => []
    | some oldCol => spec_alter_changes quoted_table oldCol nc)

/-- A one-column schema: the conflict set `["sku"]` covers every
schema column. -/
def c8Schema : Schema :=
  { name := "products", table_name := "products",
    columns := [{ name := "sku", column_type := .string }] }

/-- One instance for the one-column schema. -/
def c8Instance : Json := .obj [("sku", .str "A1")]

/-- A config with the `updated_at` auto-column disabled. -/
def c8ConfigNoUpdatedAt : StoreConfig :=
  { auto_columns := { updated_at := false } }

/-- The upsert plan of `[c8Instance]` on `c8Schema` with conflict set
`["sku"]` under `c8ConfigNoUpdatedAt` (the `DO NOTHING` case). -/
def c8PlanNothing : UpsertPlan :=
  { column_names := ["id", "\"sku\""],
    update_sets := [],
    chunk_size := 16000,
    chunk_sqls := ["INSERT INTO \"products\" (id, \"sku\") VALUES ($1, $2) ON CONFLICT (\"sku\") DO NOTHING"],
    row_binds := [[some (.str "A1")]] }

/-- A two-column schema for the bulk-vs-single contrast. -/
def c9Schema : Schema :=
  { name := "items", table_name := "items",
    columns := [{ name := "sku", column_type := .string },
                { name := "note", column_type := .string }] }

/-- An instance leaving the `note` column absent. -/
def c9Instance : Json := .obj [("sku", .str "A1")]

/-- The bulk insert plan of `[c9Instance]` on `c9Schema`: every schema
column is in the column list and the absent `note` is bound `none`
(SQL NULL). -/
def c9Plan : BulkInsertPlan :=
  { column_names := ["id", "\"sku\"", "\"note\""],
    chunk_size := 10666,
    chunk_sqls := ["INSERT INTO \"items\" (id, \"sku\", \"note\") VALUES ($1, $2, $3)"],
    row_binds := [[some (.str "A1"), none]] }

/-! ## Helper lemmas for the claim theorems -/

theorem chunksOf_singleton {α : Type} (n : Nat) (x : α) :
    chunksOf n [x] = [[x]] := by
  rw [chunksOf.eq_def]
  show [x].take (max n 1) :: chunksOf n ([x].drop (max n 1)) = [[x]]
  rw [List.take_of_length_le (by simp), List.drop_eq_nil_of_le (by simp),
    chunksOf.eq_def]

theorem list_flatMap_eq_nil {α β : Type} {l : List α} {f : α → List β}
    (h : ∀ a ∈ l, f a = []) : l.flatMap f = [] := by
  induction l with
  | nil => rfl
  | cons x xs ih =>
    rw [List.flatMap_cons, h x (List.mem_cons_self x xs), List.nil_append]
    exact ih fun a ha => h a (List.mem_cons_of_mem x ha)

theorem find?_name_self {cols : List ColumnDefinition}
    (h : (cols.map ColumnDefinition.name).Nodup) {nc : ColumnDefinition}
    (hmem : nc ∈ cols) :
    cols.find? (fun c => c.name = nc.name) = some nc := by
  induction cols with
  | nil => cases hmem
  | cons c rest ih =>
    rw [List.map_cons, List.nodup_cons] at h
    rcases List.mem_cons.mp hmem with rfl | hmem2
    · rw [List.find?_cons_of_pos _ (by simp)]
    · have hne : c.name ≠ nc.name := fun he =>
        h.1 (by rw [he]; exact List.mem_map_of_mem ColumnDefinition.name hmem2)
      rw [List.find?_cons_of_neg _ (by simp [hne])]
      exact ih h.2 hmem2

theorem names_contains_eq_any (cols : List ColumnDefinition) (x : String) :
    (cols.map ColumnDefinition.name).contains x =
      (cols.any fun c => c.name = x) := by
  rw [Bool.eq_iff_iff]
  simp [List.any_eq_true]

theorem changes_eq (qt : String) (oldCol nc : ColumnDefinition) :
    ((if oldCol.column_type ≠ nc.column_type then
       ["ALTER TABLE " ++ qt ++ " ALTER COLUMN " ++
         quote_identifier nc.name ++ " TYPE " ++
         nc.column_type.to_sql_type nc.name]
      else []) ++
     (if oldCol.nullable ≠ nc.nullable then
       ["ALTER TABLE " ++ qt ++ " ALTER COLUMN " ++
         quote_identifier nc.name ++ " " ++
         (if nc.nullable then "DROP NOT NULL" else "SET NOT NULL")]
      else []) ++
     (if oldCol.default_value ≠ nc.default_value then
       match nc.default_value with
       | some default =>
         ["ALTER TABLE " ++ qt ++ " ALTER COLUMN " ++
           quote_identifier nc.name ++ " SET DEFAULT " ++ default]
       | none =>
         ["ALTER TABLE " ++ qt ++ " ALTER COLUMN " ++
           quote_identifier nc.name ++ " DROP DEFAULT"]
      else [])) = spec_alter_changes qt oldCol nc := by
  unfold spec_alter_changes
  by_cases h1 : oldCol.column_type = nc.column_type <;>
    by_cases h2 : oldCol.nullable = nc.nullable <;>
      by_cases h3 : oldCol.default_value = nc.default_value <;>
        simp [h1, h2, h3]

theorem mods_eq_spec (t : String) (old : List ColumnDefinition)
    (new : List ColumnDefinition) :
    (new.flatMap fun nc =>
      match old.find? (fun c => c.name = nc.name) with
      | none => []
      | some oldCol =>
        (if oldCol.column_type ≠ nc.column_type then
          ["ALTER TABLE " ++ quote_identifier t ++ " ALTER COLUMN " ++
            quote_identifier nc.name ++ " TYPE " ++
            nc.column_type.to_sql_type nc.name]
         else []) ++
        (if oldCol.nullable ≠ nc.nullable then
          ["ALTER TABLE " ++ quote_identifier t ++ " ALTER COLUMN " ++
            quote_identifier nc.name ++ " " ++
            (if nc.nullable then "DROP NOT NULL" else "SET NOT NULL")]
         else []) ++
        (if oldCol.default_value ≠ nc.default_value then
          match nc.default_value with
          | some default =>
            ["ALTER TABLE " ++ quote_identifier t ++ " ALTER COLUMN " ++
              quote_identifier nc.name ++ " SET DEFAULT " ++ default]
          | none =>
            ["ALTER TABLE " ++ quote_identifier t ++ " ALTER COLUMN " ++
              quote_identifier nc.name ++ " DROP DEFAULT"]
         else [])) =
    ((new.filter fun nc =>
        (old.map ColumnDefinition.name).contains nc.name).flatMap fun nc =>
      match old.find? (fun c => c.name = nc.name) with
      | none => []
      | some oldCol => spec_alter_changes (quote_identifier t) oldCol nc) := by
  induction new with
  | nil => rfl
  | cons nc rest ih =>
    rw [List.flatMap_cons]
    by_cases hc : ((old.map ColumnDefinition.name).contains nc.name) = true
    · have hf : List.filter (fun nc =>
          (old.map ColumnDefinition.name).contains nc.name) (nc :: rest) =
          nc :: List.filter (fun nc =>
            (old.map ColumnDefinition.name).contains nc.name) rest :=
        List.filter_cons_of_pos hc
      rw [hf, List.flatMap_cons, ih]
      congr 1
      cases hfind : old.find? (fun c => c.name = nc.name) with
      | none => rfl
      | some oldCol => exact changes_eq (quote_identifier t) oldCol nc
    · have hmem : ¬(nc.name ∈ old.map ColumnDefinition.name) := by
        simpa using hc
      have hfind : old.find? (fun c => c.name = nc.name) = none := by
        rw [List.find?_eq_none]
        intro a ha
        simp only [decide_eq_true_eq]
        intro he
        exact hmem (he ▸ List.mem_map_of_mem ColumnDefinition.name ha)
      have hf : List.filter (fun nc =>
          (old.map ColumnDefinition.name).contains nc.name) (nc :: rest) =
          List.filter (fun nc =>
            (old.map ColumnDefinition.name).contains nc.name) rest :=
        List.filter_cons_of_neg (by simpa using hc)
      rw [hfind, hf, ih]
      rfl

theorem alter_eq_spec (t : String) (old new : List ColumnDefinition) :
    generate_alter_table t old new = spec_alter_table t old new := by
  simp only [generate_alter_table, spec_alter_table]
  have hadd : (new.filter fun nc => !(old.any fun c => c.name = nc.name)) =
      (new.filter fun nc =>
        !((old.map ColumnDefinition.name).contains nc.name)) := by
    apply List.filter_congr
    intro a _
    rw [names_contains_eq_any]
  have hdrop : (old.filter fun oc => !(new.any fun c => c.name = oc.name)) =
      (old.filter fun oc =>
        !((new.map ColumnDefinition.name).contains oc.name)) := by
    apply List.filter_congr
    intro a _
    rw [names_contains_eq_any]
  rw [hadd, hdrop]
  congr 1
  exact mods_eq_spec t old new

theorem buildSubClauses_cons_none {j : Json} (hj : fromValueCondition j = none)
    (rest : List Json) (off : Int) :
    buildSubClauses (j :: rest) off = buildSubClauses rest off := by
  rw [buildSubClauses.eq_def]
  split
  · rename_i heq
    exact List.noConfusion heq
  · rename_i x arg rest1 heq
    injection heq with he1 he2
    subst he1
    subst he2
    split
    · rfl
    · rename_i sub hsub
      rw [hj] at hsub
      exact Option.noConfusion hsub

theorem buildSubClauses_cons_some {j : Json} {sub : Condition}
    (hj : fromValueCondition j = some sub) (rest : List Json) (off : Int) :
    buildSubClauses (j :: rest) off =
      match build_condition_clause sub off with
      | .error e => .error e
      | .ok res =>
        match buildSubClauses rest res.2.2 with
        | .error e => .error e
        | .ok res2 =>
          .ok (("(" ++ res.1 ++ ")") :: res2.1, res.2.1 ++ res2.2.1,
            res2.2.2) := by
  rw [buildSubClauses.eq_def]
  split
  · rename_i heq
    exact List.noConfusion heq
  · rename_i x arg rest1 heq
    injection heq with he1 he2
    subst he1
    subst he2
    split
    · rename_i hnone
      rw [hj] at hnone
      exact Option.noConfusion hnone
    · rename_i sub1 hsub
      rw [hj] at hsub
      injection hsub with he
      subst he
      rfl

theorem buildSubClauses_skip_mid {j : Json} (hj : fromValueCondition j = none)
    (pre post : List Json) : ∀ off : Int,
    buildSubClauses (pre ++ j :: post) off =
      buildSubClauses (pre ++ post) off := by
  induction pre with
  | nil =>
    intro off
    rw [List.nil_append, List.nil_append]
    exact buildSubClauses_cons_none hj post off
  | cons c pre ih =>
    intro off
    rw [List.cons_append, List.cons_append]
    cases hc : fromValueCondition c with
    | none =>
      rw [buildSubClauses_cons_none hc, buildSubClauses_cons_none hc, ih off]
    | some sub =>
      rw [buildSubClauses_cons_some hc, buildSubClauses_cons_some hc]
      cases build_condition_clause sub off with
      | error e => rfl
      | ok res =>
        dsimp only
        rw [ih res.2.2]

/-! ## The claims -/

/-- Claim C5 (corrected), counterexample: `create_schema` accepts a
request whose table name fails the identifier regex and whose column
name is a reserved keyword — the very names `validate_identifier`
rejects — because nothing on the `create_schema` path calls the
sanitizer. -/
theorem C5_counterexample :
    (create_schema_plan {} [] [] c5Request).isOk = true ∧
    validate_identifier c5Request.table_name [] =
      .error "Identifier 'my table' is invalid. Must start with a lowercase letter and contain only lowercase letters, numbers, and underscores." ∧
    validate_identifier "select" [] =
      .error "Identifier 'select' is a PostgreSQL reserved keyword and cannot be used." :=
  ⟨rfl, rfl, rfl⟩

/-- Claim C5 (corrected), amended: `create_schema` performs no
identifier validation at all — for every request whose name and table
name collide with no existing schema, the plan succeeds, whatever
`validate_identifier` would say about the names. -/
theorem C5_no_identifier_validation (config : StoreConfig)
    (existing_names existing_tables : List String)
    (request : CreateSchemaRequest)
    (h1 : existing_names.contains request.name = false)
    (h2 : existing_tables.contains request.table_name = false) :
    (create_schema_plan config existing_names existing_tables request).isOk =
      true := by
  have h1' : request.name ∉ existing_names := by simpa using h1
  have h2' : request.table_name ∉ existing_tables := by simpa using h2
  simp [create_schema_plan, Except.isOk, Except.toBool, h1', h2']

/-- Claim C5, witness: the amended theorem at the concrete invalid
request. -/
theorem C5_witness :
    ([] : List String).contains c5Request.name = false ∧
    ([] : List String).contains c5Request.table_name = false ∧
    (create_schema_plan {} [] [] c5Request).isOk = true :=
  ⟨rfl, rfl, C5_no_identifier_validation {} [] [] c5Request rfl rfl⟩

/-- Claim C6 (corrected), counterexample: the enum `CHECK` fragment
splices the raw column name, not the sanitizer-quoted form the spec
describes (single quotes inside values ARE doubled on both readings). -/
theorem C6_counterexample :
    ColumnType.to_sql_type (.enum ["it's", "b"]) "status" =
      "TEXT CHECK (status IN ('it''s', 'b'))" ∧
    spec_enum_to_sql_type ["it's", "b"] "status" =
      "TEXT CHECK (\"status\" IN ('it''s', 'b'))" ∧
    ColumnType.to_sql_type (.enum ["it's", "b"]) "status" ≠
      spec_enum_to_sql_type ["it's", "b"] "status" :=
  ⟨rfl, rfl, by decide⟩

/-- Claim C6 (corrected), amended: for every enum column the fragment
is `TEXT CHECK (<raw column_name> IN ('v1',…))` with embedded single
quotes doubled; the spec's quoted-name fragment is exactly what the
code would produce if handed the pre-quoted name. -/
theorem C6_enum_check_raw_name (values : List String)
    (column_name : String) :
    ColumnType.to_sql_type (.enum values) column_name =
      "TEXT CHECK (" ++ column_name ++ " IN (" ++
        joinSep ", " (values.map fun v => "'" ++ escapeSingleQuotes v ++ "'") ++
        "))" ∧
    spec_enum_to_sql_type values column_name =
      ColumnType.to_sql_type (.enum values) (quote_identifier column_name) :=
  ⟨rfl, rfl⟩

/-- Claim C7 (corrected), counterexample: with a duplicated column
name the diff of a list against itself is NOT empty — `find?` pairs
the second `a` with the first one's attributes. -/
theorem C7_counterexample :
    generate_alter_table "t" c7DupColumns c7DupColumns =
      ["ALTER TABLE \"t\" ALTER COLUMN \"a\" TYPE BIGINT"] ∧
    generate_alter_table "t" c7DupColumns c7DupColumns ≠ ([] : List String) := by
  refine ⟨rfl, ?_⟩
  intro hco
  rw [show generate_alter_table "t" c7DupColumns c7DupColumns =
    ["ALTER TABLE \"t\" ALTER COLUMN \"a\" TYPE BIGINT"] from rfl] at hco
  exact List.noConfusion hco

/-- Diff idempotence `generate_alter_table(new, new) = []` under
pairwise distinct names (the source's `find?` then pairs every column
with itself, so no attribute differs). -/
theorem alter_self_nil_of_nodup (table_name : String)
    (cols : List ColumnDefinition)
    (h : (cols.map ColumnDefinition.name).Nodup) :
    generate_alter_table table_name cols cols = [] := by
  simp only [generate_alter_table]
  have hself : ∀ nc ∈ cols, (cols.any fun c => c.name = nc.name) = true :=
    fun nc hnc => List.any_eq_true.mpr ⟨nc, hnc, by simp⟩
  have hadd : (cols.filter fun nc => !(cols.any fun c => c.name = nc.name)) =
      [] := by
    rw [List.filter_eq_nil_iff]
    intro a ha
    simp [hself a ha]
  rw [hadd, List.map_nil, List.nil_append, List.map_nil, List.nil_append]
  apply list_flatMap_eq_nil
  intro nc hnc
  rw [find?_name_self h hnc]
  simp

/-- Claim C7 (corrected), amended: for EVERY pair of old and new
column lists the emitted statements are exactly the spec's order —
adds for the new-only names, then drops for the old-only names, then,
per name present in both in new-list order, one statement per changed
attribute (type, then nullability, then default) — and the self-diff
`generate_alter_table(new, new)` is empty when the column names are
pairwise distinct (with a duplicated name it is not: see the
counterexample). -/
theorem C7_alter_diff_order_and_idempotence (table_name : String)
    (old_columns new_columns cols : List ColumnDefinition)
    (h : (cols.map ColumnDefinition.name).Nodup) :
    generate_alter_table table_name old_columns new_columns =
      spec_alter_table table_name old_columns new_columns ∧
    generate_alter_table table_name cols cols = [] :=
  ⟨alter_eq_spec table_name old_columns new_columns,
    alter_self_nil_of_nodup table_name cols h⟩

/-- Claim C7, witness: diffing two concrete lists exercises an add, a
drop and a type change in that order, agrees with the spec reading,
and the duplicate-free self-diff is empty. -/
theorem C7_witness :
    (c7OkColumns.map ColumnDefinition.name).Nodup ∧
    generate_alter_table "t" c7OkColumns c7NewColumns =
      ["ALTER TABLE \"t\" ADD COLUMN \"c\" BOOLEAN",
       "ALTER TABLE \"t\" DROP COLUMN \"b\"",
       "ALTER TABLE \"t\" ALTER COLUMN \"a\" TYPE BIGINT"] ∧
    (generate_alter_table "t" c7OkColumns c7NewColumns =
        spec_alter_table "t" c7OkColumns c7NewColumns ∧
      generate_alter_table "t" c7OkColumns c7OkColumns = []) :=
  ⟨by decide, rfl,
    C7_alter_diff_order_and_idempotence "t" c7OkColumns c7NewColumns
      c7OkColumns (by decide)⟩

/-- Claim C10 (confirmed): both bulk operations return 0 on an empty
instance list before the schema lookup and, for the upsert, before the
empty-conflict-column check — whatever the lookup function (including
one that knows no schema) and whatever the conflict columns (including
none). -/
theorem C10_empty_bulk_short_circuit (config : StoreConfig)
    (lookup : String → Option Schema) (schema_name : String)
    (conflict_columns : List String) :
    create_instances_model config lookup schema_name [] = .ok (.count 0) ∧
    upsert_instances_model config lookup schema_name [] conflict_columns =
      .ok (.count 0) :=
  ⟨rfl, rfl⟩



/-- Claim C1 (confirmed): whenever `build_condition_clause` succeeds,
the parameter count equals the number of distinct `$n` placeholders of
the fragment, the final offset is the initial offset plus that count,
and the placeholders are exactly the contiguous block starting at the
initial offset — no unbound or missing parameter. -/
theorem C1_compiler_soundness (c : Condition) (off : Int) (f : String)
    (ps : List Json) (off' : Int)
    (hok : build_condition_clause c off = .ok (f, ps, off')) :
    ps.length = ((scanS f).dedup).length ∧ off' = off + ps.length ∧
      scanS f = intRange off ps.length := by
  obtain ⟨ho, hscan, _⟩ :=
    (compiler_inv (2 * condSize c + 1)).1 c off f ps off' (Nat.le_refl _) hok
  exact ⟨by rw [hscan, intRange_dedup_length], ho, hscan⟩

/-- Claim C1, witness: the soundness invariant at a concrete `EQ`
compilation. -/
theorem C1_witness :
    build_condition_clause ⟨"EQ", some [.str "status", .str "active"]⟩ 1 =
      .ok ("\"status\"::text = $1::text", [.str "active"], 2) ∧
    ([Json.str "active"].length =
        ((scanS "\"status\"::text = $1::text").dedup).length ∧
      (2 : Int) = 1 + ([Json.str "active"].length : Int) ∧
      scanS "\"status\"::text = $1::text" =
        intRange 1 [Json.str "active"].length) := by
  have hok : build_condition_clause
      ⟨"EQ", some [.str "status", .str "active"]⟩ 1 =
      .ok ("\"status\"::text = $1::text", [.str "active"], 2) := by
    rw [build_condition_clause.eq_def]
    rfl
  exact ⟨hok, C1_compiler_soundness _ 1 _ _ _ hok⟩

/-- Claim C2 (corrected), counterexample: the compiled fragment does
not carry the spec's doubled parentheses around the first clause. -/
theorem C2_counterexample :
    build_condition_clause c2Condition 1 ≠
      .ok ("((\"status\"::text = $1::text)) AND ((\"price\"::text > $2::text) OR (\"featured\"::text = $3::text))",
        [.str "active", .str "100", .str "true"], 4) := by
  have h : build_condition_clause c2Condition 1 =
      .ok ("(\"status\"::text = $1::text) AND ((\"price\"::text > $2::text) OR (\"featured\"::text = $3::text))",
        [.str "active", .str "100", .str "true"], 4) := by
    simp [build_condition_clause.eq_def, buildSubClauses.eq_def, c2Condition,
      eqStatusActiveJson, fromValueCondition, fieldsLookup, buildCmpArm,
      Json.asStr, Json.isNull, validField, validFieldChar, cmpOperator,
      valueToParamString, joinSep,
      show strToUpper "AND" = "AND" from rfl,
      show strToUpper "OR" = "OR" from rfl,
      show strToUpper "EQ" = "EQ" from rfl,
      show strToUpper "GT" = "GT" from rfl,
      Int.repr]
    rfl
  rw [h]
  intro hco
  have h2 := congrArg Prod.fst (Except.ok.inj hco)
  exact absurd h2 (by decide)

/-- Claim C2 (corrected), amended: the example compiles to the same
fragment with SINGLE parentheses around the first clause (each
sub-clause of an `AND` is wrapped exactly once), with the claimed
parameters and final offset. -/
theorem C2_example_compilation :
    build_condition_clause c2Condition 1 =
      .ok ("(\"status\"::text = $1::text) AND ((\"price\"::text > $2::text) OR (\"featured\"::text = $3::text))",
        [.str "active", .str "100", .str "true"], 4) := by
  simp [build_condition_clause.eq_def, buildSubClauses.eq_def, c2Condition,
    eqStatusActiveJson, fromValueCondition, fieldsLookup, buildCmpArm,
    Json.asStr, Json.isNull, validField, validFieldChar, cmpOperator,
    valueToParamString, joinSep,
    show strToUpper "AND" = "AND" from rfl,
    show strToUpper "OR" = "OR" from rfl,
    show strToUpper "EQ" = "EQ" from rfl,
    show strToUpper "GT" = "GT" from rfl,
    Int.repr]
  rfl

/-- Claim C3 (corrected), counterexample: a `STARTS_WITH` condition is
not compiled to a `LIKE` fragment — it is rejected as an unsupported
operation. -/
theorem C3_counterexample :
    build_condition_clause ⟨"STARTS_WITH", some [.str "name", .str "foo"]⟩ 1 =
      .error "Unsupported operation: STARTS_WITH" := by
  rw [build_condition_clause.eq_def]
  rfl

/-- Claim C3 (corrected), amended: for EVERY condition whose operation
key upper-cases to `STARTS_WITH` or `ENDS_WITH`, whatever the
arguments and offset, `build_condition_clause` returns the
unsupported-operation error (there are no such operator arms). -/
theorem C3_prefix_suffix_ops_unsupported (c : Condition) (off : Int)
    (h : strToUpper c.op = "STARTS_WITH" ∨ strToUpper c.op = "ENDS_WITH") :
    build_condition_clause c off =
      .error ("Unsupported operation: " ++ strToUpper c.op) := by
  rw [build_condition_clause.eq_def]
  rcases h with h | h <;> rw [h] <;> rfl

/-- Claim C3, witness: the amended theorem at a concrete `ENDS_WITH`
condition. -/
theorem C3_witness :
    (strToUpper "ENDS_WITH" = "STARTS_WITH" ∨
      strToUpper "ENDS_WITH" = "ENDS_WITH") ∧
    build_condition_clause ⟨"ENDS_WITH", some [.str "name", .str "foo"]⟩ 1 =
      .error ("Unsupported operation: " ++ strToUpper "ENDS_WITH") :=
  ⟨Or.inr rfl, C3_prefix_suffix_ops_unsupported
    ⟨"ENDS_WITH", some [.str "name", .str "foo"]⟩ 1 (Or.inr rfl)⟩

/-- Claim C4 (corrected), counterexample: an `AND` with a plain string
(not a condition expression) between two well-formed sub-conditions
does not error — the junk argument is silently dropped and the two
surrounding sub-conditions are compiled. -/
theorem C4_counterexample :
    build_condition_clause
        ⟨"AND", some [eqStatusActiveJson, .str "junk", eqStatusActiveJson]⟩
        1 =
      .ok ("(\"status\"::text = $1::text) AND (\"status\"::text = $2::text)",
        [.str "active", .str "active"], 3) := by
  simp [build_condition_clause.eq_def, buildSubClauses.eq_def,
    eqStatusActiveJson, fromValueCondition, fieldsLookup, buildCmpArm,
    Json.asStr, Json.isNull, validField, validFieldChar, cmpOperator,
    valueToParamString, joinSep,
    show strToUpper "AND" = "AND" from rfl,
    show strToUpper "EQ" = "EQ" from rfl,
    Int.repr]
  rfl

/-- Claim C4 (corrected), amended: for `AND`/`OR`, an argument that
does not parse as a condition is skipped WHEREVER it sits in the
argument list — compiling with it is the same as compiling without
it — and an argument list yielding no sub-conditions at all is an
error. -/
theorem C4_and_or_skip_semantics (op : String) (j : Json)
    (pre post : List Json) (off : Int)
    (hop : strToUpper op = "AND" ∨ strToUpper op = "OR")
    (hj : fromValueCondition j = none) :
    build_condition_clause ⟨op, some (pre ++ j :: post)⟩ off =
      build_condition_clause ⟨op, some (pre ++ post)⟩ off ∧
    build_condition_clause ⟨op, some []⟩ off =
      .error (strToUpper op ++ " operation requires at least one condition") := by
  have hskip := buildSubClauses_skip_mid hj pre post off
  have hnil : buildSubClauses [] off = .ok ([], [], off) := by
    rw [buildSubClauses.eq_def]
  rcases hop with h | h <;>
    exact ⟨by simp only [build_condition_clause.eq_def, h, hskip],
      by simp [build_condition_clause.eq_def, h, hnil, List.isEmpty]⟩

/-- Claim C4, witness: a junk argument between two sub-conditions of a
lowercase `and` is dropped, and the empty argument list errors. -/
theorem C4_witness :
    (strToUpper "and" = "AND" ∨ strToUpper "and" = "OR") ∧
    fromValueCondition (.str "junk") = none ∧
    (build_condition_clause
        ⟨"and",
          some ([eqStatusActiveJson] ++ .str "junk" :: [eqStatusActiveJson])⟩
        7 =
        build_condition_clause
          ⟨"and", some ([eqStatusActiveJson] ++ [eqStatusActiveJson])⟩ 7 ∧
      build_condition_clause ⟨"and", some []⟩ 7 =
        .error (strToUpper "and" ++ " operation requires at least one condition")) :=
  ⟨Or.inl rfl, rfl,
    C4_and_or_skip_semantics "and" (.str "junk") [eqStatusActiveJson]
      [eqStatusActiveJson] 7 (Or.inl rfl) rfl⟩



theorem upsert_plan_fields (config : StoreConfig)
    (lookup : String → Option Schema) (schema_name : String)
    (instances : List Json) (conflict_columns : List String)
    (schema : Schema) (p : UpsertPlan)
    (hlook : lookup schema_name = some schema)
    (hok : upsert_instances_model config lookup schema_name instances
      conflict_columns = .ok (.plan p)) :
    p.column_names = (if config.auto_columns.id then ["id"] else []) ++
        schema.columns.map (fun col => quote_identifier col.name) ∧
    p.update_sets =
      ((schema.columns.filter fun col =>
          !(conflict_columns.contains col.name)).map fun col =>
        quote_identifier col.name ++ " = EXCLUDED." ++
          quote_identifier col.name) ++
      (if config.auto_columns.updated_at then ["updated_at = NOW()"] else []) ∧
    (∀ rb ∈ p.row_binds, ∃ props, rb = bulkRowBinds schema.columns props) ∧
    (∀ sql ∈ p.chunk_sqls, ∃ pre,
      (p.update_sets = [] ∧
        sql = pre ++ " ON CONFLICT (" ++
          joinSep ", " (conflict_columns.map quote_identifier) ++
          ") DO NOTHING") ∨
      (p.update_sets ≠ [] ∧
        sql = pre ++ " ON CONFLICT (" ++
          joinSep ", " (conflict_columns.map quote_identifier) ++
          ") DO UPDATE SET " ++ joinSep ", " p.update_sets)) := by
  simp only [upsert_instances_model] at hok
  split at hok
  · simp at hok
  · split at hok
    · exact Except.noConfusion hok
    · split at hok
      · rename_i heq
        rw [hlook] at heq
        exact Option.noConfusion heq
      · rename_i schema1 heq
        rw [hlook] at heq
        injection heq with he
        subst he
        split at hok
        · exact Except.noConfusion hok
        · split at hok
          · exact Except.noConfusion hok
          · rename_i validated heq2
            injection hok with h3
            injection h3 with h4
            subst h4
            refine ⟨rfl, rfl, ?_, ?_⟩
            · intro rb hrb
              rw [List.mem_map] at hrb
              obtain ⟨props, _, rfl⟩ := hrb
              exact ⟨props, rfl⟩
            · intro sql hsql
              rw [List.mem_map] at hsql
              obtain ⟨chunk, _, rfl⟩ := hsql
              dsimp only
              by_cases hus : ((schema.columns.filter fun col =>
                  !(conflict_columns.contains col.name)).map fun col =>
                    quote_identifier col.name ++ " = EXCLUDED." ++
                      quote_identifier col.name) ++
                  (if config.auto_columns.updated_at then
                    ["updated_at = NOW()"] else []) = []
              · have hemp : (((schema.columns.filter fun col =>
                    !(conflict_columns.contains col.name)).map fun col =>
                      quote_identifier col.name ++ " = EXCLUDED." ++
                        quote_identifier col.name) ++
                    (if config.auto_columns.updated_at then
                      ["updated_at = NOW()"] else [])).isEmpty = true := by
                  rw [hus]
                  rfl
                rw [if_pos hemp]
                exact ⟨_, Or.inl ⟨hus, rfl⟩⟩
              · have hemp : ¬((((schema.columns.filter fun col =>
                    !(conflict_columns.contains col.name)).map fun col =>
                      quote_identifier col.name ++ " = EXCLUDED." ++
                        quote_identifier col.name) ++
                    (if config.auto_columns.updated_at then
                      ["updated_at = NOW()"] else [])).isEmpty = true) :=
                  fun hco => hus (List.isEmpty_iff.mp hco)
                rw [if_neg hemp]
                exact ⟨_, Or.inr ⟨hus, rfl⟩⟩

theorem create_model_plan_fields (config : StoreConfig)
    (lookup : String → Option Schema) (schema_name : String)
    (instances : List Json) (schema : Schema) (p : BulkInsertPlan)
    (hlook : lookup schema_name = some schema)
    (hok : create_instances_model config lookup schema_name instances =
      .ok (.plan p)) :
    p.column_names = (if config.auto_columns.id then ["id"] else []) ++
        schema.columns.map (fun col => quote_identifier col.name) ∧
    ∀ rb ∈ p.row_binds, ∃ props, rb = bulkRowBinds schema.columns props := by
  simp only [create_instances_model] at hok
  split at hok
  · simp at hok
  · split at hok
    · rename_i heq
      rw [hlook] at heq
      exact Option.noConfusion heq
    · rename_i schema1 heq
      rw [hlook] at heq
      injection heq with he
      subst he
      split at hok
      · exact Except.noConfusion hok
      · rename_i validated heq2
        injection hok with h3
        injection h3 with h4
        subst h4
        refine ⟨rfl, ?_⟩
        intro rb hrb
        rw [List.mem_map] at hrb
        obtain ⟨props, _, rfl⟩ := hrb
        exact ⟨props, rfl⟩

theorem createInstanceColumnLoop_names (columns : List ColumnDefinition)
    (props : List (String × Json)) (k : Nat) {names phs : List String}
    {idx' : Nat}
    (hok : createInstanceColumnLoop columns props k =
      .ok (names, phs, idx')) :
    names = (columns.filter fun col =>
        (fieldsLookup col.name props).isSome).map
      fun col => quote_identifier col.name := by
  induction columns generalizing k names phs idx' with
  | nil =>
    simp only [createInstanceColumnLoop] at hok
    injection hok with h1
    injection h1 with ha hb
    rw [← ha]
    rfl
  | cons col rest ih =>
    simp only [createInstanceColumnLoop] at hok
    split at hok
    · rename_i value hval
      split at hok
      · exact Except.noConfusion hok
      · split at hok
        · exact Except.noConfusion hok
        · split at hok
          · exact Except.noConfusion hok
          · rename_i names0 phs0 idx0 hres
            injection hok with h1
            injection h1 with ha hb
            rw [← ha, List.filter_cons_of_pos (by simp [hval]),
              List.map_cons, ih _ hres]
    · rename_i hval
      split at hok
      · exact Except.noConfusion hok
      · rw [List.filter_cons_of_neg (by simp [hval])]
        exact ih _ hok

/-- Claim C8 (corrected), counterexample: with the conflict set
covering every schema column but the `updated_at` auto-column enabled
(the default), the upsert SQL ends in `DO UPDATE SET
updated_at = NOW()`, not `DO NOTHING`. -/
theorem C8_counterexample :
    (c8Schema.columns.all fun col =>
      (["sku"] : List String).contains col.name) = true ∧
    upsert_instances_model {} (fun _ => some c8Schema) "products"
        [c8Instance] ["sku"] =
      .ok (.plan
        { column_names := ["id", "\"sku\""],
          update_sets := ["updated_at = NOW()"],
          chunk_size := 16000,
          chunk_sqls := ["INSERT INTO \"products\" (id, \"sku\") VALUES ($1, $2) ON CONFLICT (\"sku\") DO UPDATE SET updated_at = NOW()"],
          row_binds := [[some (.str "A1")]] }) := by
  refine ⟨rfl, ?_⟩
  have h1 : upsert_instances_model {} (fun _ => some c8Schema) "products"
      [c8Instance] ["sku"] =
      .ok (.plan
        { column_names := ["id", "\"sku\""],
          update_sets := ["updated_at = NOW()"],
          chunk_size := 16000,
          chunk_sqls := (chunksOf 16000 [[("sku", Json.str "A1")]]).map
            (fun chunk =>
              "INSERT INTO \"products\" (id, \"sku\") VALUES " ++
                joinSep ", " (chunkPlaceholders true 1 chunk.length 1) ++
                " ON CONFLICT (" ++ "\"sku\"" ++ ") DO UPDATE SET " ++
                "updated_at = NOW()"),
          row_binds := [[some (.str "A1")]] }) := rfl
  rw [h1, chunksOf_singleton]
  rfl

/-- Claim C8 (corrected), amended: the upsert suffix is `DO NOTHING`
exactly when the `DO UPDATE SET` assignment list is empty, which
requires BOTH that every schema column is a conflict column AND that
the `updated_at` auto-column is disabled; with `updated_at` enabled the
suffix is always `DO UPDATE SET …` (at least `updated_at = NOW()`). -/
theorem C8_upsert_do_nothing_iff (config : StoreConfig)
    (lookup : String → Option Schema) (schema_name : String)
    (instances : List Json) (conflict_columns : List String)
    (schema : Schema) (p : UpsertPlan)
    (hlook : lookup schema_name = some schema)
    (hok : upsert_instances_model config lookup schema_name instances
      conflict_columns = .ok (.plan p)) :
    (p.update_sets = [] ↔
      (schema.columns.all fun col => conflict_columns.contains col.name) =
        true ∧ config.auto_columns.updated_at = false) ∧
    (∀ sql ∈ p.chunk_sqls, ∃ pre,
      (p.update_sets = [] ∧
        sql = pre ++ " ON CONFLICT (" ++
          joinSep ", " (conflict_columns.map quote_identifier) ++
          ") DO NOTHING") ∨
      (p.update_sets ≠ [] ∧
        sql = pre ++ " ON CONFLICT (" ++
          joinSep ", " (conflict_columns.map quote_identifier) ++
          ") DO UPDATE SET " ++ joinSep ", " p.update_sets)) := by
  obtain ⟨hcn, hus, hrb, hsq⟩ :=
    upsert_plan_fields _ _ _ _ _ _ _ hlook hok
  refine ⟨?_, hsq⟩
  rw [hus]
  constructor
  · intro hnil
    rw [List.append_eq_nil] at hnil
    obtain ⟨hfil, hite⟩ := hnil
    rw [List.map_eq_nil, List.filter_eq_nil_iff] at hfil
    refine ⟨?_, ?_⟩
    · rw [List.all_eq_true]
      intro col hcol
      have hc := hfil col hcol
      simpa using hc
    · by_contra hup
      rw [Bool.not_eq_false] at hup
      rw [if_pos hup] at hite
      exact List.noConfusion hite
  · rintro ⟨hall, hupd⟩
    rw [List.all_eq_true] at hall
    have hfil : (schema.columns.filter fun col =>
        !(conflict_columns.contains col.name)) = [] := by
      rw [List.filter_eq_nil_iff]
      intro col hcol
      simpa using hall col hcol
    rw [hfil, List.map_nil, List.nil_append,
      if_neg (by rw [hupd]; exact fun hco => Bool.noConfusion hco)]

/-- Claim C8, witness: with one schema column, conflict set `["sku"]`
and `updated_at` disabled, the suffix is `DO NOTHING`. -/
theorem C8_witness :
    (fun _ : String => some c8Schema) "products" = some c8Schema ∧
    upsert_instances_model c8ConfigNoUpdatedAt (fun _ => some c8Schema)
      "products" [c8Instance] ["sku"] = .ok (.plan c8PlanNothing) ∧
    ((c8PlanNothing.update_sets = [] ↔
      (c8Schema.columns.all fun col =>
        (["sku"] : List String).contains col.name) = true ∧
      c8ConfigNoUpdatedAt.auto_columns.updated_at = false) ∧
    (∀ sql ∈ c8PlanNothing.chunk_sqls, ∃ pre,
      (c8PlanNothing.update_sets = [] ∧
        sql = pre ++ " ON CONFLICT (" ++
          joinSep ", " ((["sku"] : List String).map quote_identifier) ++
          ") DO NOTHING") ∨
      (c8PlanNothing.update_sets ≠ [] ∧
        sql = pre ++ " ON CONFLICT (" ++
          joinSep ", " ((["sku"] : List String).map quote_identifier) ++
          ") DO UPDATE SET " ++ joinSep ", " c8PlanNothing.update_sets))) := by
  have h1 : upsert_instances_model c8ConfigNoUpdatedAt
      (fun _ => some c8Schema) "products" [c8Instance] ["sku"] =
      .ok (.plan
        { column_names := ["id", "\"sku\""],
          update_sets := [],
          chunk_size := 16000,
          chunk_sqls := (chunksOf 16000 [[("sku", Json.str "A1")]]).map
            (fun chunk =>
              "INSERT INTO \"products\" (id, \"sku\") VALUES " ++
                joinSep ", " (chunkPlaceholders true 1 chunk.length 1) ++
                " ON CONFLICT (" ++ "\"sku\"" ++ ") DO NOTHING"),
          row_binds := [[some (.str "A1")]] }) := rfl
  have hok : upsert_instances_model c8ConfigNoUpdatedAt
      (fun _ => some c8Schema) "products" [c8Instance] ["sku"] =
      .ok (.plan c8PlanNothing) := by
    rw [h1, chunksOf_singleton]
    rfl
  exact ⟨rfl, hok,
    C8_upsert_do_nothing_iff c8ConfigNoUpdatedAt (fun _ => some c8Schema)
      "products" [c8Instance] ["sku"] c8Schema c8PlanNothing rfl hok⟩

/-- Claim C9 (confirmed): a bulk insert's column list always carries
every schema column (plus the auto `id` when enabled) and each row's
binds are, per column, the present value or `none` (SQL NULL) — also
for upserts — whereas the single-row `create_instance` column list
keeps only the columns present in the properties, so the database
default applies to the absent ones there. -/
theorem C9_bulk_null_vs_single_default (config : StoreConfig)
    (lookup : String → Option Schema) (schema_name : String)
    (instances : List Json) (schema : Schema) (p : BulkInsertPlan)
    (hlook : lookup schema_name = some schema)
    (hok : create_instances_model config lookup schema_name instances =
      .ok (.plan p)) :
    p.column_names = (if config.auto_columns.id then ["id"] else []) ++
        schema.columns.map (fun col => quote_identifier col.name) ∧
    (∀ rb ∈ p.row_binds, ∃ props,
        rb = schema.columns.map fun col => fieldsLookup col.name props) ∧
    (∀ (instances2 : List Json) (conflict_columns : List String)
        (q : UpsertPlan),
        upsert_instances_model config lookup schema_name instances2
            conflict_columns = .ok (.plan q) →
        q.column_names = (if config.auto_columns.id then ["id"] else []) ++
            schema.columns.map (fun col => quote_identifier col.name) ∧
        ∀ rb ∈ q.row_binds, ∃ props,
          rb = schema.columns.map fun col => fieldsLookup col.name props) ∧
    (∀ (props : List (String × Json)) (sp : SingleInsertPlan),
        create_instance_plan config (some schema) schema_name (.obj props) =
          .ok sp →
        sp.column_names = (if config.auto_columns.id then ["id"] else []) ++
          (schema.columns.filter fun col =>
              (fieldsLookup col.name props).isSome).map
            fun col => quote_identifier col.name) := by
  obtain ⟨hcn, hrb⟩ := create_model_plan_fields _ _ _ _ _ _ hlook hok
  refine ⟨hcn, fun rb h => hrb rb h, ?_, ?_⟩
  · intro instances2 conflict_columns q hq
    obtain ⟨hcn2, _, hrb2, _⟩ :=
      upsert_plan_fields _ _ _ _ _ _ _ hlook hq
    exact ⟨hcn2, fun rb h => hrb2 rb h⟩
  · intro props sp hsp
    simp only [create_instance_plan] at hsp
    split at hsp
    · exact Except.noConfusion hsp
    · rename_i names phs idx heq
      injection hsp with h1
      subst h1
      have hn := createInstanceColumnLoop_names schema.columns props _ heq
      by_cases hid : config.auto_columns.id = true <;> simp [hid, hn]

/-- Claim C9, witness: the two-column schema with `note` absent — the
bulk plan lists `note` and binds it `none`, the single plan omits it. -/
theorem C9_witness :
    (fun _ : String => some c9Schema) "items" = some c9Schema ∧
    create_instances_model {} (fun _ => some c9Schema) "items"
      [c9Instance] = .ok (.plan c9Plan) ∧
    (c9Plan.column_names =
        (if ({} : StoreConfig).auto_columns.id then ["id"] else []) ++
          c9Schema.columns.map (fun col => quote_identifier col.name) ∧
      (∀ rb ∈ c9Plan.row_binds, ∃ props,
          rb = c9Schema.columns.map fun col => fieldsLookup col.name props) ∧
      (∀ (instances2 : List Json) (conflict_columns : List String)
          (q : UpsertPlan),
          upsert_instances_model {} (fun _ => some c9Schema) "items"
              instances2 conflict_columns = .ok (.plan q) →
          q.column_names =
              (if ({} : StoreConfig).auto_columns.id then ["id"] else []) ++
                c9Schema.columns.map (fun col => quote_identifier col.name) ∧
          ∀ rb ∈ q.row_binds, ∃ props,
            rb = c9Schema.columns.map fun col => fieldsLookup col.name props) ∧
      (∀ (props : List (String × Json)) (sp : SingleInsertPlan),
          create_instance_plan {} (some c9Schema) "items" (.obj props) =
            .ok sp →
          sp.column_names =
            (if ({} : StoreConfig).auto_columns.id then ["id"] else []) ++
              (c9Schema.columns.filter fun col =>
                  (fieldsLookup col.name props).isSome).map
                fun col => quote_identifier col.name)) := by
  have h1 : create_instances_model {} (fun _ => some c9Schema) "items"
      [c9Instance] =
      .ok (.plan
        { column_names := ["id", "\"sku\"", "\"note\""],
          chunk_size := 10666,
          chunk_sqls := (chunksOf 10666 [[("sku", Json.str "A1")]]).map
            (fun chunk =>
              "INSERT INTO \"items\" (id, \"sku\", \"note\") VALUES " ++
                joinSep ", " (chunkPlaceholders true 2 chunk.length 1)),
          row_binds := [[some (.str "A1"), none]] }) := rfl
  have hok : create_instances_model {} (fun _ => some c9Schema) "items"
      [c9Instance] = .ok (.plan c9Plan) := by
    rw [h1, chunksOf_singleton]
    rfl
  exact ⟨rfl, hok,
    C9_bulk_null_vs_single_default {} (fun _ => some c9Schema) "items"
      [c9Instance] c9Schema c9Plan rfl hok⟩


end OS
